import Mathlib

/-!
Verification development for the upload/entry processing core of the NOMAD
repository (`nomad/processing/data.py` and related modules).

The Python source is shallowly embedded: Mongo documents become Lean
structures, the relevant methods become pure functions (database effects are
made explicit through returned state or recorded write traces), and external
collaborators (parsers, file storage, the search index) appear as explicit
parameters or recorded actions.  Parts of the repository that the relevant
code calls but whose files are not part of the source tree
(`nomad.processing.base`, `nomad.utils`, the metainfo data model) are
modelled from the specification; each such definition carries a doc comment
saying so.
-/

namespace NomadProc

/-- Modelled from the spec: the process state machine of
`nomad.processing.base.ProcessStatus` (module not under `src/`).  States per
spec section 4.1: `STANDBY` (initial/idle), `RUNNING`, the intermediate
`WAITING_FOR_RESULT`, the terminals `SUCCESS`, `FAILURE` and `DELETED`. -/
inductive ProcessStatus where
  | standby
  | running
  | waitingForResult
  | success
  | failure
  | deleted
deriving DecidableEq, Repr

/-- Modelled from the spec: a status is terminal for the join barrier when it
is `SUCCESS` or `FAILURE` (spec section 4.4: `processed = count(entries where
status ∈ {SUCCESS,FAILURE})`). -/
def ProcessStatus.isTerminal : ProcessStatus → Bool
  | .success => true
  | .failure => true
  | _ => false

/-- One `Calc` document (an Entry), restricted to the fields the claims are
about: `calc_id` (primary key), `upload_id`, `mainfile`, `parser` and the
process status managed by the process framework
(`nomad/processing/data.py`, class `Calc`). -/
structure CalcDoc where
  calc_id : String
  upload_id : String
  mainfile : String
  parser : String
  process_status : ProcessStatus
deriving DecidableEq, Repr

/-- One `Upload` document, restricted to the fields the claims are about
(`nomad/processing/data.py`, class `Upload`).  `entries` is the set of `Calc`
documents with this upload's id (the Mongo collection restricted to this
upload). -/
structure UploadDoc where
  upload_id : String
  published : Bool
  publish_directly : Bool
  from_oasis : Bool
  joined : Bool
  process_status : ProcessStatus
  entries : List CalcDoc
deriving DecidableEq, Repr

/-- Modelled from the spec: `nomad.utils.hash` (module `nomad/utils` is not
under `src/`); per spec sections 3 and 8 it is a deterministic hash of its
string arguments.  A concrete executable stand-in: a 64-bit polynomial hash
folded over the arguments. -/
def utils_hash (args : List String) : Nat :=
  args.foldl
    (fun acc s =>
      s.data.foldl (fun a c => (a * 31 + c.toNat + 1) % 2 ^ 64) ((acc * 37 + 7) % 2 ^ 64))
    5381

/-- Decimal digit characters for rendering an id. -/
def digitChar (n : Nat) : Char :=
  ['0', '1', '2', '3', '4', '5', '6', '7', '8', '9'].getD n '0'

/-- Decimal digits of `n`, most significant first (`fuel` bounds the
recursion). -/
def natDigits : Nat → Nat → List Char
  | 0, _ => []
  | fuel + 1, n =>
      if n < 10 then [digitChar n]
      else natDigits fuel (n / 10) ++ [digitChar (n % 10)]

/-- An id string for a hash value. -/
def natIdString (n : Nat) : String :=
  String.mk (natDigits (n + 1) n)

/-- `generate_entry_id` (`nomad/processing/data.py` lines 126-135): returns
`utils.hash(upload_id, mainfile)` rendered as an id string. -/
def generate_entry_id (upload_id mainfile : String) : String :=
  natIdString (utils_hash [upload_id, mainfile])

/-- The ambient mutable state an impure implementation could have read: the
upload collection.  `generate_entry_id` reads none of it. -/
structure World where
  uploads : List UploadDoc
deriving Repr

/-- `generate_entry_id` as invoked from an arbitrary program state: the source
function's body uses only its two arguments, so the embedding ignores the
`World`. -/
def generate_entry_id_at (_w : World) (upload_id mainfile : String) : String :=
  generate_entry_id upload_id mainfile

/-- `Upload.processed_calcs` (`nomad/processing/data.py` lines 1535-1543):
the number of this upload's `Calc` documents whose status is `SUCCESS` or
`FAILURE`. -/
def processed_calcs (u : UploadDoc) : Nat :=
  (u.entries.filter (fun e =>
    e.process_status = ProcessStatus.success ∨ e.process_status = ProcessStatus.failure)).length

/-- `Upload.total_calcs` (`nomad/processing/data.py` lines 1545-1548): the
number of this upload's `Calc` documents. -/
def total_calcs (u : UploadDoc) : Nat :=
  u.entries.length

/-- The MongoDB `find_one_and_update` call of `Upload.check_join`
(`nomad/processing/data.py` lines 1420-1422): filter
`{'_id': upload_id, 'joined': {'$ne': True}}`, update
`{'$set': {'joined': True}}`.  pymongo returns the pre-update document when
one matched the filter, and `None` when none did; here the relevant part of
the document is the `joined` field.  Returns (new stored value of `joined`,
returned pre-image of `joined`). -/
def find_one_and_update_joined (joined : Bool) : Bool × Option Bool :=
  if joined ≠ true then (true, some joined) else (joined, none)

/-- The decision on line 1423 of `nomad/processing/data.py`:
`if modified_upload is None or modified_upload['joined'] is False:` — the
caller proceeds to finalization exactly when this is true of the value
`find_one_and_update` returned. -/
def joinDecision (modified_upload : Option Bool) : Bool :=
  modified_upload = none ∨ modified_upload = some false

/-- Whether the conditional update actually changed a record: pymongo
returns a (pre-image) document exactly when a record matched the filter and
was updated. -/
def updateChangedRecord (modified_upload : Option Bool) : Bool :=
  modified_upload.isSome

/-- The race window of spec section 4.4: `n` callers have all evaluated the
join condition against the same state (upload `WAITING_FOR_RESULT`, all
entries terminal) and now execute the atomic conditional update one after the
other on the shared `joined` flag; each proceeds to finalize iff
`joinDecision` holds of what its own update returned.  Returns how many of
the `n` callers run finalization. -/
def finalizeCount : Nat → Bool → Nat
  | 0, _ => 0
  | n + 1, joined =>
      let r := find_one_and_update_joined joined
      (if joinDecision r.2 then 1 else 0) + finalizeCount n r.1

/-- `Upload._cleanup_after_processing` (`nomad/processing/data.py` lines
1452-1513), restricted to its effect on the upload document's fields: after
the completion email and the re-pack of an already published upload, the
upload is published directly when `publish_directly` is set, it is not yet
published, and `processed_calcs > 0` (line 1488).  Timestamps are not
modelled. -/
def cleanup_after_processing (u : UploadDoc) : UploadDoc :=
  if u.publish_directly = true ∧ u.published = false ∧ 0 < processed_calcs u then
    { u with published := true }
  else u

/-- `Proc.succeed` as used at the end of the join (`self.succeed()`, line
1435); modelled from the spec (section 4.1): transitions to `SUCCESS`. -/
def succeed (u : UploadDoc) : UploadDoc :=
  { u with process_status := ProcessStatus.success }

/-- `Upload.check_join` (`nomad/processing/data.py` lines 1405-1440): when
the upload is `WAITING_FOR_RESULT` and `processed_calcs >= total_calcs`, run
the atomic conditional update on `joined`; a caller for which `joinDecision`
holds runs finalization (the phonon correction step, `cleanup`, `succeed`).
Returns the resulting upload document and whether this caller finalized.
The phonon step rewrites entry archives, not the fields modelled here. -/
def check_join (u : UploadDoc) : UploadDoc × Bool :=
  if u.process_status = ProcessStatus.waitingForResult ∧ processed_calcs u ≥ total_calcs u then
    let r := find_one_and_update_joined u.joined
    let u' := { u with joined := r.1 }
    if joinDecision r.2 then
      (succeed (cleanup_after_processing u'), true)
    else
      (u', false)
  else
    (u, false)

/-- The reprocessing options consulted by `Calc.process_calc` and
`Upload.parse_all`; field names as in the source (`config.reprocess`,
consumed at `nomad/processing/data.py` lines 414-416, 1350 and 1364).  This
is the settings object after `config.reprocess.customize` filled in
defaults. -/
structure ReprocessSettings where
  reparse_published_if_parser_unchanged : Bool
  reparse_published_if_parser_changed : Bool
  add_newfound_entries_to_published : Bool
  delete_unmatched_published_entries : Bool
deriving DecidableEq, Repr

/-- The per-mainfile oasis entry metadata available to `parse_all`:
`oasis_metadata.get('entries', {})` maps a mainfile path to a metadata dict
whose optional `calc_id` key is all `parse_all` reads of it
(`nomad/processing/data.py` lines 1317 and 1329-1336).  Modelled as an
association list from filename to that optional `calc_id` value. -/
abbrev OasisEntries := List (String × Option String)

/-- The `calc_id` computed for a matched mainfile (`nomad/processing/data.py`
lines 1328-1336): the oasis-provided id when the oasis metadata has an entry
for the filename with a `calc_id`, otherwise `generate_entry_id`. -/
def entry_id_for (upload_id : String) (oasis : OasisEntries) (filename : String) : String :=
  match oasis.lookup filename with
  | some (some cid) => cid
  | some none => generate_entry_id upload_id filename
  | none => generate_entry_id upload_id filename

/-- The running state of the matching loop of `Upload.parse_all`
(`nomad/processing/data.py` lines 1324-1358): the `Calc` collection
restricted to this upload, and the `matched_entries` id set (kept as a
duplicate-free list in insertion order). -/
structure MatchLoopState where
  store : List CalcDoc
  matched_entries : List String
deriving DecidableEq, Repr

/-- Insertion into the `matched_entries` set. -/
def insertId (id : String) (l : List String) : List String :=
  if id ∈ l then l else l ++ [id]

/-- One iteration of the matching loop of `Upload.parse_all`
(`nomad/processing/data.py` lines 1327-1358) for the matched pair
`fp = (filename, parser.name)`: compute the `calc_id`
(`entry_id_for upload_id oasis fp.1`); if a `Calc` with that id exists,
update its parser when the upload is in staging and the parser changed, and
mark the id matched; otherwise create a new `Calc` iff the upload is
unpublished or `add_newfound_entries_to_published` is set. -/
def matchStep (upload_id : String) (published : Bool) (settings : ReprocessSettings)
    (oasis : OasisEntries) (st : MatchLoopState) (fp : String × String) : MatchLoopState :=
  match st.store.find? (fun e => e.calc_id == entry_id_for upload_id oasis fp.1) with
  | some entry =>
      { store :=
          if published = false ∧ fp.2 ≠ entry.parser then
            st.store.map (fun e =>
              if e.calc_id = entry_id_for upload_id oasis fp.1 then
                { e with parser := fp.2 }
              else e)
          else st.store,
        matched_entries := insertId (entry_id_for upload_id oasis fp.1) st.matched_entries }
  | none =>
      if published = false ∨ settings.add_newfound_entries_to_published = true then
        { store := st.store ++
            [{ calc_id := entry_id_for upload_id oasis fp.1, upload_id := upload_id,
               mainfile := fp.1, parser := fp.2, process_status := ProcessStatus.standby }],
          matched_entries := insertId (entry_id_for upload_id oasis fp.1) st.matched_entries }
      else st

/-- The whole matching loop of `Upload.parse_all`, starting from the
pre-existing entries and an empty matched set. -/
def match_loop (upload_id : String) (published : Bool) (settings : ReprocessSettings)
    (oasis : OasisEntries) (old_entries : List CalcDoc)
    (matched : List (String × String)) : MatchLoopState :=
  matched.foldl (matchStep upload_id published settings oasis)
    { store := old_entries, matched_entries := [] }

/-- The `entries_to_delete` list of `Upload.parse_all` (lines 1360-1365):
ids of pre-existing entries that were not matched, kept only when the upload
is unpublished or `delete_unmatched_published_entries` is set. -/
def entries_to_delete (upload_id : String) (published : Bool)
    (settings : ReprocessSettings) (oasis : OasisEntries)
    (old_entries : List CalcDoc) (matched : List (String × String)) : List String :=
  (old_entries.filter (fun e =>
    e.calc_id ∉ (match_loop upload_id published settings oasis old_entries
        matched).matched_entries ∧
      (published = false ∨ settings.delete_unmatched_published_entries = true))).map
    (fun e => e.calc_id)

/-- The per-entry effect of `Calc.reset_pymongo_update` applied by the
"reset all calcs" bulk update (lines 1386-1389); the reset itself lives in
`nomad.processing.base` and is modelled from the spec as a transition back
to the initial status. -/
def reset_entry (e : CalcDoc) : CalcDoc :=
  { e with process_status := ProcessStatus.standby }

/-- The outcome of the diffing part of `Upload.parse_all`: the `Calc`
collection for this upload after creations, parser updates, deletions and the
reset, the search index (as the set of indexed entry ids) after the
deletions, and the ids that were deleted (from Mongo, the partial-archive
store and the search index). -/
structure ParseAllResult where
  entries : List CalcDoc
  search_index : List String
  deleted : List String
deriving DecidableEq, Repr

/-- The diffing part of `Upload.parse_all` (`nomad/processing/data.py` lines
1317-1396): run the matching loop over the `(mainfile, parser)` pairs
produced by `match_mainfiles`; collect pre-existing entries whose id was not
matched into `entries_to_delete` when the upload is unpublished or
`delete_unmatched_published_entries` is set; delete those entries from the
collection and the search index; and, when the upload had entries before this
round (`has_old_entries`), reset all remaining entries to the initial status
(`Calc.reset_pymongo_update`; the reset itself is in
`nomad.processing.base`, modelled from the spec as a transition back to
standby).  Dispatching `process_calc` on the surviving entries is outside
this function's scope. -/
def parse_all_diff (upload_id : String) (published : Bool) (settings : ReprocessSettings)
    (oasis : OasisEntries) (old_entries : List CalcDoc) (matched : List (String × String))
    (search_index : List String) : ParseAllResult :=
  { entries :=
      if 0 < old_entries.length then
        ((match_loop upload_id published settings oasis old_entries matched).store.filter
          (fun e => e.calc_id ∉
            entries_to_delete upload_id published settings oasis old_entries matched)).map
          reset_entry
      else
        (match_loop upload_id published settings oasis old_entries matched).store.filter
          (fun e => e.calc_id ∉
            entries_to_delete upload_id published settings oasis old_entries matched),
    search_index := search_index.filter
      (fun id => id ∉ entries_to_delete upload_id published settings oasis old_entries matched),
    deleted := entries_to_delete upload_id published settings oasis old_entries matched }

/-- The external outcomes of the three pipeline steps of
`Calc.process_calc` (`nomad/processing/data.py` lines 522-547, 634-655,
657-688): whether the handler capability, the normalizers and the archive
persistence each succeed.  These are the opaque external collaborators of
spec section 6. -/
structure PipelineEnv where
  parse_ok : Bool
  normalize_ok : Bool
  archive_ok : Bool
deriving DecidableEq, Repr

/-- The observable per-entry effects of one `process_calc` run: the final
process status, the entry's recorded processing errors, the `processed`
flags of the metadata records this run pushed to the search index, how many
times an archive was persisted, and whether the join coordinator was
notified (`Calc._check_join`, `nomad/processing/data.py` lines 516-520). -/
structure CalcRunOutcome where
  process_status : ProcessStatus
  errors : List String
  indexed : List Bool
  archive_writes : Nat
  join_notified : Bool
deriving DecidableEq, Repr

/-- `Calc.on_fail` (`nomad/processing/data.py` lines 479-510): mark the
entry metadata `processed = False`, persist it to the document, index the
minimal record in the search index, persist whatever archive could be
produced (`write_archive`), and finally notify the join coordinator via
`_check_join` (outside all the internal `try` blocks, so it always runs). -/
def on_fail (s : CalcRunOutcome) : CalcRunOutcome :=
  let s := { s with indexed := s.indexed ++ [false] }
  let s := { s with archive_writes := s.archive_writes + 1 }
  { s with join_notified := true }

/-- `Calc.on_success` (`nomad/processing/data.py` lines 512-514): notify the
join coordinator via `_check_join`. -/
def on_success (s : CalcRunOutcome) : CalcRunOutcome :=
  { s with join_notified := true }

/-- One run of the per-entry pipeline of `Calc.process_calc` for an entry
that is to be parsed (`nomad/processing/data.py` lines 444-457), driven by
the process framework of `nomad.processing.base` (modelled from the spec,
section 4.1: a step failure wraps into a processing failure, transitions the
entry to `FAILURE`, records the error message, and runs `on_fail`; a fully
successful run transitions to `SUCCESS` and runs `on_success`).  On a
successful `archiving` step the metadata record (with `processed = True`,
line 663) is indexed and the archive persisted (lines 673-688). -/
def process_calc (env : PipelineEnv) : CalcRunOutcome :=
  let s0 : CalcRunOutcome :=
    { process_status := ProcessStatus.running, errors := [], indexed := [],
      archive_writes := 0, join_notified := false }
  if env.parse_ok = false then
    on_fail { s0 with
      process_status := ProcessStatus.failure,
      errors := s0.errors ++ ["parser failed with exception"] }
  else if env.normalize_ok = false then
    on_fail { s0 with
      process_status := ProcessStatus.failure,
      errors := s0.errors ++ ["normalizer failed with exception"] }
  else if env.archive_ok = false then
    on_fail { s0 with
      process_status := ProcessStatus.failure,
      errors := s0.errors ++ ["archiving failed"] }
  else
    let s := { s0 with indexed := s0.indexed ++ [true], archive_writes := s0.archive_writes + 1 }
    on_success { s with process_status := ProcessStatus.success }

/-- Modelled from the spec: the status groups of `nomad.processing.base`
(module not under `src/`); `STATUSES_PROCESSING` holds the running states
(`RUNNING`, `WAITING_FOR_RESULT`). -/
def STATUSES_PROCESSING : List ProcessStatus :=
  [ProcessStatus.running, ProcessStatus.waitingForResult]

/-- Modelled from the spec: the complement group `STATUSES_NOT_PROCESSING`
of `nomad.processing.base`. -/
def STATUSES_NOT_PROCESSING : List ProcessStatus :=
  [ProcessStatus.standby, ProcessStatus.success, ProcessStatus.failure, ProcessStatus.deleted]

/-- The arguments of `Upload.export_bundle` (`nomad/processing/data.py`
lines 1659-1663). -/
structure ExportParams where
  export_as_stream : Bool
  export_path : Option String
  zipped : Bool
  move_files : Bool
  overwrite : Bool
  include_raw_files : Bool
  include_protected_raw_files : Bool
  include_archive_files : Bool
  include_datasets : Bool
deriving DecidableEq, Repr

/-- What `Upload.export_bundle` produces once the safety checks passed
(`nomad/processing/data.py` lines 1737-1744): a zip stream, a zip file at
the export path, or an on-disk folder at the export path. -/
inductive ExportOutput where
  | zipstream
  | zipfile (path : String)
  | disk (path : String)
deriving DecidableEq, Repr

/-- `Upload.export_bundle` (`nomad/processing/data.py` lines 1659-1744),
reduced to its safety checks (lines 1691-1705, in source order) and the
choice of output form; a failed `assert` becomes an error and no output is
produced.  `export_path_exists` stands for `os.path.exists(export_path)`,
`process_running` and `current_process_publish_externally` for the process
guard of line 1704. -/
def export_bundle (p : ExportParams) (export_path_exists : Bool)
    (process_running : Bool) (current_process_publish_externally : Bool) :
    Except String ExportOutput :=
  if p.export_as_stream = true ∧ p.export_path ≠ none then
    Except.error "Cannot have export_path set when exporting as a stream."
  else if p.export_as_stream = true ∧ p.zipped = false then
    Except.error "Must have zipped set to True when exporting as stream."
  else if p.export_as_stream = false ∧ p.export_path = none then
    Except.error "Must specify export_path."
  else if p.export_as_stream = false ∧ p.overwrite = false ∧ export_path_exists = true then
    Except.error "export_path already exists."
  else if p.move_files = true ∧
      ¬(p.include_raw_files = true ∧ p.include_protected_raw_files = true ∧
        p.include_archive_files = true) then
    Except.error "Must export entire upload when using move_files."
  else if p.move_files = true ∧ (p.zipped = true ∨ p.export_as_stream = true) then
    Except.error "Cannot use move_files together with zipped or export_as_stream."
  else if process_running = true ∧ current_process_publish_externally = false then
    Except.error "Upload is being processed."
  else if p.export_as_stream = true then
    Except.ok ExportOutput.zipstream
  else
    match p.export_path with
    | some path => if p.zipped = true then Except.ok (ExportOutput.zipfile path)
                   else Except.ok (ExportOutput.disk path)
    | none => Except.error "Must specify export_path."

/-- A database write performed by `Upload.import_bundle`
(`nomad/processing/data.py` lines 1746-1997): the upload-record update of
`self.modify` (line 1837), a new `Dataset` save (line 1882), a `Calc.create`
(line 1917; `Proc.create` persists the created document, compare the
`Upload.create` doc string, lines 834-838), and the final persistence block
(lines 1965-1972): `self.save`, each `entry.save`, and the bulk
`search.index` call. -/
inductive DbWrite where
  | upload_modify
  | dataset_save (dataset_id : String)
  | entry_create (calc_id : String)
  | upload_save
  | entry_save (calc_id : String)
  | search_index_bulk
deriving DecidableEq, Repr

/-- A dataset definition of the bundle manifest, and equally a `Dataset`
record of the importing deployment's database (`dataset_id`, `name`,
`user_id`; `keys_ok` abstracts the `keys_exist` check on the definition and
`user_ok` the `check_user_ids` lookup of its creator). -/
structure BundleDataset where
  dataset_id : String
  name : String
  user_id : String
  keys_ok : Bool
  user_ok : Bool
deriving DecidableEq, Repr

/-- An entry of the bundle manifest (`bundle_info['entries']`), with the
fields `import_bundle` reads plus flags abstracting external validations:
`keys_ok` for `keys_exist` at entry level, `metadata_keys_ok` for
`keys_exist` on the metadata, `user_refs_ok` for the `check_user_ids` calls
on coauthors/shared_with, `json_ok` for `entry.validate()`, `metadata_ok`
for the `EntryMetadata` instantiation, and `archive_metadata_ok` for the
`full_entry_metadata` read of the imported archive.  `entry_id` models the
manifest's `_id` key. -/
structure BundleEntry where
  entry_id : String
  upload_id : String
  mainfile : String
  keys_ok : Bool
  process_status : ProcessStatus
  metadata_keys_ok : Bool
  metadata_upload_name : Option String
  metadata_uploader : Option String
  metadata_published : Option Bool
  metadata_with_embargo : Option Bool
  metadata_datasets : List String
  user_refs_ok : Bool
  json_ok : Bool
  metadata_ok : Bool
  archive_metadata_ok : Bool
deriving DecidableEq, Repr

/-- The root of `bundle_info.json` as read by `import_bundle`, with flags
abstracting checks whose inputs are not further analysed: `root_keys_ok`
for the root-level `keys_exist`, `source_version_ok` for the minimum-version
comparison, `upload_json_ok` for `self.validate()` after `self.modify`, and
`timestamps_ok` for the timestamp sanity checks of lines 1841-1847. -/
structure BundleInfo where
  upload_id : String
  root_keys_ok : Bool
  source_version_ok : Bool
  source_deployment_id : Option String
  export_include_raw_files : Bool
  export_include_protected_raw_files : Bool
  export_include_archive_files : Bool
  export_include_datasets : Bool
  upload_mongo_id : String
  upload_name : Option String
  upload_published : Bool
  publish_time_present : Bool
  upload_json_ok : Bool
  timestamps_ok : Bool
  datasets : Option (List BundleDataset)
  entries : List BundleEntry
deriving DecidableEq, Repr

/-- The import settings (`config.bundle_import.default_settings` after
`customize`), restricted to the options `import_bundle` consults. -/
structure BundleImportSettings where
  include_raw_files : Bool
  include_archive_files : Bool
  include_datasets : Bool
  include_bundle_info : Bool
  keep_original_timestamps : Bool
  set_from_oasis : Bool
  trigger_processing : Bool
deriving DecidableEq, Repr

/-- The running state of `import_bundle`: the database writes performed so
far (in order), the first assertion failure if any, the dataset id mapping
built while importing dataset definitions, and the set of `with_embargo`
values seen across the entries. -/
structure ImportState where
  writes : List DbWrite
  error : Option String
  dataset_id_mapping : List (String × String)
  with_embargo_values : List (Option Bool)
deriving DecidableEq, Repr

/-- An `assert cond, msg` of `import_bundle`: once a failure happened,
nothing further runs. -/
def impGuard (s : ImportState) (ok : Bool) (msg : String) : ImportState :=
  if s.error.isSome then s
  else if ok then s
  else { s with error := some msg }

/-- A database write of `import_bundle`; performed only while no assertion
has failed. -/
def impWrite (s : ImportState) (w : DbWrite) : ImportState :=
  if s.error.isSome then s else { s with writes := s.writes ++ [w] }

/-- Set-insertion into the `with_embargo_values` set (line 1896). -/
def insertEmbargo (v : Option Bool) (s : ImportState) : ImportState :=
  if s.error.isSome then s
  else if v ∈ s.with_embargo_values then s
  else { s with with_embargo_values := s.with_embargo_values ++ [v] }

/-- One iteration of the dataset-definition loop of `import_bundle`
(`nomad/processing/data.py` lines 1865-1884): key and creator checks; when a
dataset of the same name exists it must have the same creator and its id is
the mapping target, otherwise the new dataset is saved to the database and
maps to itself. -/
def import_dataset_step (datasets_db : List BundleDataset) (s : ImportState)
    (d : BundleDataset) : ImportState :=
  if s.error.isSome then s
  else
    let s := impGuard s d.keys_ok "Missing key in dataset definition"
    let s := impGuard s d.user_ok "Invalid dataset creator id"
    if s.error.isSome then s
    else
      match datasets_db.find? (fun d0 => d0.name == d.name) with
      | some d0 =>
          let s := impGuard s (d0.user_id == d.user_id)
            "A dataset with the same name but different creator exists"
          if s.error.isSome then s
          else { s with dataset_id_mapping :=
                  s.dataset_id_mapping ++ [(d.dataset_id, d0.dataset_id)] }
      | none =>
          let s := impWrite s (DbWrite.dataset_save d.dataset_id)
          { s with dataset_id_mapping := s.dataset_id_mapping ++ [(d.dataset_id, d.dataset_id)] }

/-- One iteration of the entry loop of `import_bundle`
(`nomad/processing/data.py` lines 1888-1935), in source order: entry-level
keys, non-processing status, the `with_embargo` argument override, metadata
keys, recording the embargo value, the `upload_id` consistency check, the
entry-id-equals-`generate_entry_id` check (line 1900), the denormalized
metadata consistency checks, user references, `Calc.create` (a database
write), entry json validation, and the `EntryMetadata` instantiation with
dataset-id remapping (a missing mapping raises and fails as invalid entry
metadata).  `self_name` and `self_published` are the upload's values after
`self.modify` copied them from the bundle. -/
def import_entry_step (self_upload_id : String) (self_name : Option String)
    (self_user_id : String) (self_published : Bool) (with_embargo_arg : Option Bool)
    (include_datasets : Bool) (s : ImportState) (e : BundleEntry) : ImportState :=
  if s.error.isSome then s
  else
    let s := impGuard s e.keys_ok "Missing key for entry"
    let s := impGuard s (decide (e.process_status ∈ STATUSES_NOT_PROCESSING))
      "Invalid entry process_status"
    let md_with_embargo := match with_embargo_arg with
      | some b => some b
      | none => e.metadata_with_embargo
    let s := impGuard s e.metadata_keys_ok "Missing entry metadata"
    let s := insertEmbargo md_with_embargo s
    let s := impGuard s (e.upload_id == self_upload_id) "Mismatching upload_id in entry definition"
    let s := impGuard s (e.entry_id == generate_entry_id self_upload_id e.mainfile)
      "Provided entry id does not match generated value"
    let s := impGuard s (e.metadata_upload_name == self_name)
      "Inconsistent entry metadata: upload_name"
    let s := impGuard s (e.metadata_uploader == some self_user_id)
      "Inconsistent entry metadata: uploader"
    let s := impGuard s (e.metadata_published == some self_published)
      "Inconsistent entry metadata: published"
    let s := impGuard s e.user_refs_ok "Invalid coauthor or shared_with reference"
    let s := impWrite s (DbWrite.entry_create e.entry_id)
    let s := impGuard s e.json_ok "Bad entry json data"
    let s := impGuard s
      (e.metadata_ok &&
        (!include_datasets ||
          e.metadata_datasets.all (fun id =>
            (s.dataset_id_mapping.lookup id).isSome)))
      "Invalid entry metadata"
    s

/-- The skeleton upload `import_bundle` runs on (created by
`create_skeleton_from_bundle`): its id, its user, and its default embargo
length (the field default, 36). -/
structure UploadSkeleton where
  upload_id : String
  user_id : String
  embargo_length : Option Nat
deriving DecidableEq, Repr

/-- The part of `Upload.import_bundle` before the entry loop
(`nomad/processing/data.py` lines 1785-1884), in source order: the
root-level key, version, inclusion-flag, upload-id and published checks, the
`self.modify` database write with its validation, the timestamp checks, the
oasis source check, and the dataset-definition loop. -/
def import_bundle_pre (self : UploadSkeleton) (bundle : BundleInfo)
    (settings : BundleImportSettings) (datasets_db : List BundleDataset) : ImportState :=
  let s : ImportState :=
    { writes := [], error := none, dataset_id_mapping := [], with_embargo_values := [] }
  let s := impGuard s bundle.root_keys_ok "Missing key in bundle_info.json"
  let s := impGuard s bundle.source_version_ok "Bundle created in NOMAD version below required"
  let s := impGuard s (!settings.include_raw_files || bundle.export_include_raw_files)
    "Raw files required but not included in the bundle"
  let s := impGuard s (!settings.include_archive_files || bundle.export_include_archive_files)
    "Archive files required but not included in the bundle"
  let s := impGuard s (!settings.include_datasets || bundle.export_include_datasets)
    "Datasets data required but not included in the bundle"
  let s := impGuard s
    (self.upload_id == bundle.upload_id && bundle.upload_id == bundle.upload_mongo_id)
    "Inconsistent upload id information"
  let s := impGuard s (!bundle.upload_published || !bundle.entries.isEmpty)
    "Upload published but no entries in bundle_info.json"
  let s := impGuard s
    (!(bundle.upload_published && settings.keep_original_timestamps) ||
      bundle.publish_time_present)
    "publish_time not provided in bundle."
  let s := impWrite s DbWrite.upload_modify
  let s := impGuard s bundle.upload_json_ok "Bad upload json data"
  let s := impGuard s bundle.timestamps_ok "Bad or inconsistent timestamp"
  let s := impGuard s
    (!settings.set_from_oasis || (bundle.source_deployment_id.getD "") ≠ "")
    "No source deployment_id defined"
  if settings.include_datasets then
    (bundle.datasets.getD []).foldl (import_dataset_step datasets_db)
      (impGuard s (!bundle.datasets.isNone) "Missing datasets definition in bundle_info.json")
  else s

/-- The embargo validation (lines 1937-1947) and the archive-metadata checks
(lines 1954-1963) of `import_bundle`, run after the entry loop. -/
def import_post_entry_checks (self : UploadSkeleton) (bundle : BundleInfo)
    (settings : BundleImportSettings) (embargo_length_arg : Option Nat)
    (s : ImportState) : ImportState :=
  let s := impGuard s (s.with_embargo_values.length == 1)
    "Different embargo settings for different entries"
  let the_embargo := s.with_embargo_values.head?.getD none
  let s :=
    if bundle.upload_published then
      if the_embargo = some true then
        let len := match embargo_length_arg with
          | some l => some l
          | none => self.embargo_length
        impGuard (impGuard (impGuard s the_embargo.isSome
            "Invalid with_embargo value (must be boolean)")
          len.isSome "Missing required embargo_length")
          (1 ≤ len.getD 0 && len.getD 0 ≤ 36) "Invalid embargo_length"
      else
        impGuard s the_embargo.isSome "Invalid with_embargo value (must be boolean)"
    else s
  if settings.include_archive_files then
    bundle.entries.foldl (fun s e =>
      impGuard s e.archive_metadata_ok "Invalid metadata in archive entry") s
  else s

/-- `Upload.import_bundle` (`nomad/processing/data.py` lines 1746-1997) up
to and including the final persistence block: the pre-entry validation, the
entry loop, the post-entry checks, and — only when no assertion failed —
the final save of the upload and its entries and the bulk search indexing
(lines 1965-1972).  File operations (`import_upload_files`) touch no
database and are not recorded.  The exception handler (rollback or index
removal, lines 1979-1991) is outside this function: its input is the
returned state. -/
def import_bundle (self : UploadSkeleton) (bundle : BundleInfo)
    (settings : BundleImportSettings) (with_embargo_arg : Option Bool)
    (embargo_length_arg : Option Nat) (datasets_db : List BundleDataset) : ImportState :=
  let s := import_post_entry_checks self bundle settings embargo_length_arg
    (bundle.entries.foldl
      (import_entry_step self.upload_id bundle.upload_name self.user_id
        bundle.upload_published with_embargo_arg settings.include_datasets)
      (import_bundle_pre self bundle settings datasets_db))
  let s := impWrite s DbWrite.upload_save
  let s := bundle.entries.foldl (fun s e => impWrite s (DbWrite.entry_save e.entry_id)) s
  if settings.include_archive_files && !bundle.entries.isEmpty then
    impWrite s DbWrite.search_index_bulk
  else s

/-- A parsed user metadata file (or the entry metadata under construction):
an ordered dictionary from key to value; values are modelled as strings. -/
abbrev MetaDict := List (String × String)

/-- Dictionary lookup on an insertion-ordered association list. -/
def alist_lookup {α : Type} (d : List (String × α)) (key : String) : Option α :=
  match d with
  | [] => none
  | kv :: rest => if kv.1 = key then some kv.2 else alist_lookup rest key

/-- The keys of a dictionary, in insertion order. -/
def dictKeys (d : MetaDict) : List String :=
  d.map Prod.fst

/-- Python `dict.setdefault(key, val)`: add the pair only when the key is
absent (used by the directory walk of `Calc._read_metadata_from_file`, line
261, so that the nearest directory's value wins). -/
def dict_setdefault (d : MetaDict) (key val : String) : MetaDict :=
  if (alist_lookup d key).isSome then d else d ++ [(key, val)]

/-- Python `dict[key] = val` on an insertion-ordered dictionary: replace the
value in place when the key exists, append otherwise. -/
def dict_set (d : MetaDict) (key val : String) : MetaDict :=
  match d with
  | [] => [(key, val)]
  | kv :: rest => if kv.1 = key then (key, val) :: rest else kv :: dict_set rest key val

/-- The collection phase of `Calc._read_metadata_from_file`
(`nomad/processing/data.py` lines 252-273): fold the metadata files from the
mainfile's directory up to the upload root with `setdefault`, skipping the
`entries` and `oasis_datasets` keys; then apply the per-mainfile overrides
from the root file's `entries` map (keyed by mainfile), which take
precedence.  `dirs` holds the parsed metadata dicts ordered from the
mainfile's directory upward; `root_entries` is the root file's `entries`
map. -/
def collect_file_metadata (dirs : List MetaDict)
    (root_entries : List (String × MetaDict)) (mainfile : String) : MetaDict :=
  let metadata := dirs.foldl (fun acc part =>
    part.foldl (fun acc kv =>
      if kv.1 = "entries" ∨ kv.1 = "oasis_datasets" then acc
      else dict_setdefault acc kv.1 kv.2) acc) []
  let overrides := (alist_lookup root_entries mainfile).getD []
  overrides.foldl (fun acc kv => dict_set acc kv.1 kv.2) metadata

/-- The part of the `Calc` document the metadata application mutates: its
`calc_id` and the entry metadata being built. -/
structure CalcMetaState where
  calc_id : String
  entry_metadata : MetaDict
deriving DecidableEq, Repr

/-- The application loop of `Calc._read_metadata_from_file`
(`nomad/processing/data.py` lines 278-297): for each collected key/value,
skip `entries`; resolve the key against the editable-metadata definitions
and, for oasis uploads, additionally against the oasis definitions
(`editable` and `oasis` are the definition names, i.e. the keys of
`_editable_metadata` and `_oasis_metadata`); an unresolved key is logged and
ignored; a resolved key is applied to the entry metadata with `m_set`, and
when the resolved definition is `EntryMetadata.calc_id` (the definitions are
keyed by quantity name, so exactly for the key `calc_id`) the document's
`calc_id` is reassigned to the value (lines 292-293). -/
def apply_metadata_item (editable oasis : List String) (from_oasis : Bool)
    (s : CalcMetaState) (kv : String × String) : CalcMetaState :=
  if kv.1 = "entries" then s
  else if editable.contains kv.1 || (from_oasis && oasis.contains kv.1) then
    if kv.1 = "calc_id" then
      { calc_id := kv.2, entry_metadata := dict_set s.entry_metadata kv.1 kv.2 }
    else
      { s with entry_metadata := dict_set s.entry_metadata kv.1 kv.2 }
  else s

/-- The loop of lines 278-297 over the collected metadata items. -/
def apply_user_metadata (editable oasis : List String) (from_oasis : Bool)
    (metadata : MetaDict) (s : CalcMetaState) : CalcMetaState :=
  metadata.foldl (apply_metadata_item editable oasis from_oasis) s

/-- `Calc._read_metadata_from_file` (`nomad/processing/data.py` lines
244-297), invoked from the `archiving` step (line 669): collect the
directory-scoped user metadata, then apply the recognized keys. -/
def read_metadata_from_file (editable oasis : List String) (from_oasis : Bool)
    (dirs : List MetaDict) (root_entries : List (String × MetaDict))
    (mainfile : String) (s : CalcMetaState) : CalcMetaState :=
  apply_user_metadata editable oasis from_oasis
    (collect_file_metadata dirs root_entries mainfile) s

/-- Whether an `export_bundle` call was refused by the safety checks. -/
def exceptIsError (r : Except String ExportOutput) : Bool :=
  match r with
  | Except.error _ => true
  | Except.ok _ => false

/-- No write of the final persistence block of `import_bundle` (upload save,
entry saves, bulk indexing) is in the trace. -/
def noFinalWrites (s : ImportState) : Prop :=
  DbWrite.upload_save ∉ s.writes ∧ DbWrite.search_index_bulk ∉ s.writes ∧
    ∀ id, DbWrite.entry_save id ∉ s.writes

/-! Concrete instances used by the closed witness and counterexample
theorems below. -/

/-- A successfully processed entry. -/
def entrySuccess : CalcDoc :=
  { calc_id := "c1", upload_id := "u1", mainfile := "m1",
    parser := "parsers/vasp", process_status := ProcessStatus.success }

/-- An upload in `WAITING_FOR_RESULT` whose single entry succeeded and whose
`joined` flag is still clear. -/
def uploadOneSuccess : UploadDoc :=
  { upload_id := "u1", published := false, publish_directly := false,
    from_oasis := false, joined := false,
    process_status := ProcessStatus.waitingForResult, entries := [entrySuccess] }

/-- An upload with `publish_directly` set, not yet published, whose only
entry failed processing. -/
def uploadAllFailed : UploadDoc :=
  { upload_id := "u2", published := false, publish_directly := true,
    from_oasis := false, joined := false,
    process_status := ProcessStatus.waitingForResult,
    entries := [{ calc_id := "c2", upload_id := "u2", mainfile := "m2",
                  parser := "parsers/vasp", process_status := ProcessStatus.failure }] }

/-- A pre-existing entry whose mainfile no raw file matches any more. -/
def oldEntryGone : CalcDoc :=
  { calc_id := "c_old", upload_id := "u1", mainfile := "old/mainfile",
    parser := "parsers/vasp", process_status := ProcessStatus.success }

/-- Conservative reprocess settings (all options unset). -/
def conservativeSettings : ReprocessSettings :=
  { reparse_published_if_parser_unchanged := false,
    reparse_published_if_parser_changed := false,
    add_newfound_entries_to_published := false,
    delete_unmatched_published_entries := false }

/-- An `export_bundle` call that moves the source files, includes the three
file categories but excludes datasets. -/
def exportMoveNoDatasets : ExportParams :=
  { export_as_stream := false, export_path := some "/data/bundle", zipped := false,
    move_files := true, overwrite := true, include_raw_files := true,
    include_protected_raw_files := true, include_archive_files := true,
    include_datasets := false }

/-- An `export_bundle` call that streams without zipping. -/
def exportStreamUnzipped : ExportParams :=
  { export_as_stream := true, export_path := none, zipped := false,
    move_files := false, overwrite := false, include_raw_files := true,
    include_protected_raw_files := true, include_archive_files := true,
    include_datasets := true }

/-- The skeleton upload a bundle import runs on. -/
def importSelf : UploadSkeleton :=
  { upload_id := "u1", user_id := "user1", embargo_length := some 36 }

/-- A dataset definition carried by the example bundle. -/
def importDataset : BundleDataset :=
  { dataset_id := "d1", name := "dataset one", user_id := "user1",
    keys_ok := true, user_ok := true }

/-- A manifest entry whose `_id` is not `generate_entry_id(upload_id, mainfile)`. -/
def importBadEntry : BundleEntry :=
  { entry_id := "bogus-id", upload_id := "u1", mainfile := "m1",
    keys_ok := true, process_status := ProcessStatus.success,
    metadata_keys_ok := true, metadata_upload_name := none,
    metadata_uploader := some "user1", metadata_published := some false,
    metadata_with_embargo := some false, metadata_datasets := ["d1"],
    user_refs_ok := true, json_ok := true, metadata_ok := true,
    archive_metadata_ok := true }

/-- A bundle manifest that passes every check up to the entry loop and whose
single entry has a wrong `_id`. -/
def importBundleBadId : BundleInfo :=
  { upload_id := "u1", root_keys_ok := true, source_version_ok := true,
    source_deployment_id := some "dep1", export_include_raw_files := true,
    export_include_protected_raw_files := true, export_include_archive_files := true,
    export_include_datasets := true, upload_mongo_id := "u1", upload_name := none,
    upload_published := false, publish_time_present := true, upload_json_ok := true,
    timestamps_ok := true, datasets := some [importDataset],
    entries := [importBadEntry] }

/-- Import settings including datasets and archive files. -/
def importSettingsAll : BundleImportSettings :=
  { include_raw_files := true, include_archive_files := true,
    include_datasets := true, include_bundle_info := true,
    keep_original_timestamps := false, set_from_oasis := false,
    trigger_processing := false }

/-! ## Generic helper lemmas -/

/-- A property preserved by every step of a fold holds of the fold. -/
theorem foldl_pres {α β : Type} (g : α → β → α) (P : α → Prop)
    (hstep : ∀ a b, P a → P (g a b)) :
    ∀ (l : List β) (a : α), P a → P (l.foldl g a) := by
  intro l
  induction l with
  | nil => intro a ha; exact ha
  | cons b rest ih => intro a ha; exact ih (g a b) (hstep a b ha)

/-- A fold whose step fixes every state satisfying `P` leaves such a state
unchanged. -/
theorem foldl_fix {α β : Type} (g : α → β → α) (P : α → Prop)
    (hfix : ∀ a b, P a → g a b = a) :
    ∀ (l : List β) (a : α), P a → l.foldl g a = a := by
  intro l
  induction l with
  | nil => intro a _; rfl
  | cons b rest ih => intro a ha; rw [List.foldl_cons, hfix a b ha]; exact ih a ha

/-! ## C1: the join decision -/

/-- C1: the claim fails on the code.  In `Upload.check_join` the test
`modified_upload is None or modified_upload['joined'] is False` (line 1423)
also sends a caller whose atomic conditional update changed nothing
(`find_one_and_update` returned `None` because `joined` was already true) to
finalization: at the failing input `joined = true` the update changes no
record yet the caller proceeds, and in a race of two completions that have
both passed the join condition, both callers finalize instead of exactly
one. -/
theorem check_join_race_finalizes_every_caller :
    updateChangedRecord (find_one_and_update_joined true).2 = false ∧
    joinDecision (find_one_and_update_joined true).2 = true ∧
    finalizeCount 2 false = 2 := by decide

/-! ## C2: purity of `generate_entry_id` -/

/-- C2: `generate_entry_id` is a pure function of `(upload_id, mainfile)`:
evaluated from any two program states it returns the same id, equal to the
state-free value, so repeated calls with the same arguments always return
the same entry id string. -/
theorem generate_entry_id_pure (w w' : World) (upload_id mainfile : String) :
    generate_entry_id_at w upload_id mainfile = generate_entry_id_at w' upload_id mainfile ∧
    generate_entry_id_at w upload_id mainfile = generate_entry_id upload_id mainfile :=
  ⟨rfl, rfl⟩

/-! ## C7: direct publishing during finalization -/

/-- C7 counterexample: `_cleanup_after_processing` publishes
`uploadAllFailed` directly although its only entry (and hence every entry)
reached `FAILURE` and none reached `SUCCESS`, refuting "if every Entry
failed, the upload is not published". -/
theorem cleanup_publishes_upload_with_only_failed_entries :
    uploadAllFailed.publish_directly = true ∧
    uploadAllFailed.published = false ∧
    uploadAllFailed.entries ≠ [] ∧
    (∀ e ∈ uploadAllFailed.entries, e.process_status = ProcessStatus.failure) ∧
    (cleanup_after_processing uploadAllFailed).published = true := by decide

/-- C7 (amended): during finalization `_cleanup_after_processing` publishes
an upload with `publish_directly` set and not yet published iff at least one
of its entries reached a terminal state (`processed_calcs > 0`, a count in
which a `FAILURE` entry participates exactly like a `SUCCESS` one); an upload
whose entries all failed is therefore still published directly. -/
theorem cleanup_publish_directly_iff (u : UploadDoc) :
    (cleanup_after_processing u).published = true ↔
      (u.published = true ∨ (u.publish_directly = true ∧ 0 < processed_calcs u)) := by
  unfold cleanup_after_processing
  split
  case isTrue h =>
    simp only [true_iff]
    exact Or.inr ⟨h.1, h.2.2⟩
  case isFalse h =>
    constructor
    · exact fun hp => Or.inl hp
    · rintro (hp | ⟨hpd, hpc⟩)
      · exact hp
      · by_contra hnp
        exact h ⟨hpd, Bool.not_eq_true _ ▸ hnp, hpc⟩

/-! ## C9: export bundle mode constraints -/

/-- C9 counterexample: a call with `move_files = True` that excludes datasets
(`include_datasets = False`) while including the three file categories, not
zipping and not streaming, passes every safety check of `export_bundle` and
produces output — refuting that `move_files` requires all four inclusion
flags. -/
theorem export_bundle_move_without_datasets_succeeds :
    exportMoveNoDatasets.move_files = true ∧
    exportMoveNoDatasets.include_datasets = false ∧
    exportMoveNoDatasets.zipped = false ∧
    exportMoveNoDatasets.export_as_stream = false ∧
    exceptIsError (export_bundle exportMoveNoDatasets false false false) = false := by decide

/-- C9 (amended): the safety checks of `export_bundle` enforce: exporting as
a stream requires `zipped = True` and no `export_path`; `move_files = True`
requires both `zipped = False` and `export_as_stream = False` and requires
the three file inclusion flags (raw files, protected raw files, archive
files) to be set — `include_datasets` is not required; every call violating
one of these constraints fails before producing any output. -/
theorem export_bundle_mode_constraints (p : ExportParams) (pe pr cp : Bool) :
    (p.export_as_stream = true → p.export_path ≠ none ∨ p.zipped = false →
      exceptIsError (export_bundle p pe pr cp) = true) ∧
    (p.move_files = true →
      (p.zipped = true ∨ p.export_as_stream = true ∨
        ¬(p.include_raw_files = true ∧ p.include_protected_raw_files = true ∧
          p.include_archive_files = true)) →
      exceptIsError (export_bundle p pe pr cp) = true) := by
  constructor
  · intro hs hviol
    unfold export_bundle
    split
    · rfl
    · split
      · rfl
      · split
        · rfl
        · split
          · rfl
          · split
            · rfl
            · split
              · rfl
              · split
                · rfl
                · exfalso
                  rename_i h1 h2 _ _ _ _ _
                  rcases hviol with hpath | hzip
                  · exact h1 ⟨hs, hpath⟩
                  · exact h2 ⟨hs, hzip⟩
  · intro hm hviol
    unfold export_bundle
    split
    · rfl
    · split
      · rfl
      · split
        · rfl
        · split
          · rfl
          · split
            · rfl
            · split
              · rfl
              · exfalso
                rename_i h5 h6
                rcases hviol with hz | hs | hflags
                · exact h6 ⟨hm, Or.inl hz⟩
                · exact h6 ⟨hm, Or.inr hs⟩
                · exact h5 ⟨hm, hflags⟩

/-! ## C3: the joined flip is guarded by the join condition -/

/-- When the processed count reaches the total, every entry of the upload is
terminal. -/
theorem all_terminal_of_processed_ge_total (u : UploadDoc)
    (h : total_calcs u ≤ processed_calcs u) :
    ∀ e ∈ u.entries, e.process_status = ProcessStatus.success ∨
      e.process_status = ProcessStatus.failure := by
  unfold processed_calcs total_calcs at h
  intro e he
  have heq := le_antisymm (List.length_filter_le _ _) h
  exact of_decide_eq_true ((List.filter_length_eq_length).mp heq e he)

/-- C3: `check_join` never newly sets `joined` while an entry of the round is
non-terminal: whenever the resulting upload document has `joined = true`,
either it already was true, or the upload was `WAITING_FOR_RESULT` with
`processed_calcs ≥ total_calcs` — and then every entry of the upload is
terminal (`SUCCESS` or `FAILURE`). -/
theorem check_join_joined_flip_guarded (u : UploadDoc)
    (h : (check_join u).1.joined = true) :
    u.joined = true ∨
      (u.process_status = ProcessStatus.waitingForResult ∧
        processed_calcs u ≥ total_calcs u ∧
        ∀ e ∈ u.entries, e.process_status = ProcessStatus.success ∨
          e.process_status = ProcessStatus.failure) := by
  unfold check_join at h
  split at h
  case isTrue hc => exact Or.inr ⟨hc.1, hc.2, all_terminal_of_processed_ge_total u hc.2⟩
  case isFalse hc => exact Or.inl h

/-- C3 witness: `uploadOneSuccess` flips `joined` and satisfies the guard. -/
theorem check_join_joined_flip_guarded_witness :
    (check_join uploadOneSuccess).1.joined = true ∧
    (uploadOneSuccess.joined = true ∨
      (uploadOneSuccess.process_status = ProcessStatus.waitingForResult ∧
        processed_calcs uploadOneSuccess ≥ total_calcs uploadOneSuccess ∧
        ∀ e ∈ uploadOneSuccess.entries, e.process_status = ProcessStatus.success ∨
          e.process_status = ProcessStatus.failure)) :=
  ⟨by decide, check_join_joined_flip_guarded uploadOneSuccess (by decide)⟩

/-! ## C6: a failing entry is contained and still counts for the join -/

/-- C6: when any pipeline step of an entry's processing fails, the failure is
contained at that entry: the error is recorded on the entry, a metadata
record marked unprocessed (`processed = false`) is indexed, an archive is
persisted, and the join coordinator is notified; moreover for the join
condition a `FAILURE` entry increments `processed_calcs` exactly like a
`SUCCESS` one. -/
theorem entry_failure_contained_and_counted (env : PipelineEnv)
    (h : (process_calc env).process_status = ProcessStatus.failure) :
    (process_calc env).errors ≠ [] ∧
    false ∈ (process_calc env).indexed ∧
    1 ≤ (process_calc env).archive_writes ∧
    (process_calc env).join_notified = true ∧
    ∀ (u : UploadDoc) (e : CalcDoc),
      (e.process_status = ProcessStatus.success ∨ e.process_status = ProcessStatus.failure) →
      processed_calcs { u with entries := e :: u.entries } = processed_calcs u + 1 := by
  have hcount : ∀ (u : UploadDoc) (e : CalcDoc),
      (e.process_status = ProcessStatus.success ∨ e.process_status = ProcessStatus.failure) →
      processed_calcs { u with entries := e :: u.entries } = processed_calcs u + 1 := by
    intro u e he
    simp only [processed_calcs]
    rw [List.filter_cons]
    simp [decide_eq_true he]
  obtain ⟨p, n, a⟩ := env
  cases p <;> cases n <;> cases a <;>
    first
      | exact absurd h (by decide)
      | exact ⟨by decide, by decide, by decide, by decide, hcount⟩

/-- C6 witness: an entry whose parse step fails. -/
theorem entry_failure_contained_and_counted_witness :
    (process_calc { parse_ok := false, normalize_ok := true, archive_ok := true }).process_status =
        ProcessStatus.failure ∧
    ((process_calc { parse_ok := false, normalize_ok := true, archive_ok := true }).errors ≠ [] ∧
      false ∈ (process_calc { parse_ok := false, normalize_ok := true, archive_ok := true }).indexed ∧
      1 ≤ (process_calc { parse_ok := false, normalize_ok := true, archive_ok := true }).archive_writes ∧
      (process_calc { parse_ok := false, normalize_ok := true, archive_ok := true }).join_notified = true ∧
      ∀ (u : UploadDoc) (e : CalcDoc),
        (e.process_status = ProcessStatus.success ∨ e.process_status = ProcessStatus.failure) →
        processed_calcs { u with entries := e :: u.entries } = processed_calcs u + 1) :=
  ⟨by decide,
    entry_failure_contained_and_counted
      { parse_ok := false, normalize_ok := true, archive_ok := true } (by decide)⟩

/-! ## C4/C5: the diffing step of `parse_all` -/

/-- Membership in the `matched_entries` set after an insertion. -/
theorem mem_insertId {x y : String} {l : List String} :
    x ∈ insertId y l ↔ x = y ∨ x ∈ l := by
  unfold insertId
  split
  case isTrue h =>
    constructor
    · exact Or.inr
    · rintro (rfl | hx)
      · exact h
      · exact hx
  case isFalse h =>
    simp [List.mem_append, or_comm]

/-- One matching step only marks the id of its own mainfile as matched. -/
theorem matchStep_matched_avoids (upload_id : String) (published : Bool)
    (settings : ReprocessSettings) (oasis : OasisEntries) (st : MatchLoopState)
    (fp : String × String) (cid : String)
    (hfp : entry_id_for upload_id oasis fp.1 ≠ cid)
    (hst : cid ∉ st.matched_entries) :
    cid ∉ (matchStep upload_id published settings oasis st fp).matched_entries := by
  unfold matchStep
  split
  · intro hmem
    rcases mem_insertId.mp hmem with rfl | hmem'
    · exact hfp rfl
    · exact hst hmem'
  · split
    · intro hmem
      rcases mem_insertId.mp hmem with rfl | hmem'
      · exact hfp rfl
      · exact hst hmem'
    · exact hst

/-- One matching step for a different id keeps a stored entry with id `cid`
untouched in the store. -/
theorem matchStep_store_keeps (upload_id : String) (published : Bool)
    (settings : ReprocessSettings) (oasis : OasisEntries) (st : MatchLoopState)
    (fp : String × String) (e : CalcDoc)
    (hfp : entry_id_for upload_id oasis fp.1 ≠ e.calc_id)
    (he : e ∈ st.store) :
    e ∈ (matchStep upload_id published settings oasis st fp).store := by
  unfold matchStep
  split
  · split
    case isTrue hcond =>
      refine List.mem_map.mpr ⟨e, he, ?_⟩
      rw [if_neg (fun hc => hfp hc.symm)]
    case isFalse hcond => exact he
  · split
    · exact List.mem_append_left _ he
    · exact he

/-- If no matched mainfile of `l` maps to the id `cid`, the matching loop
never marks `cid` matched and keeps every stored entry with that id. -/
theorem matchLoop_avoids_id (upload_id : String) (published : Bool)
    (settings : ReprocessSettings) (oasis : OasisEntries) (cid : String)
    (l : List (String × String))
    (hl : ∀ fp ∈ l, entry_id_for upload_id oasis fp.1 ≠ cid) :
    ∀ st : MatchLoopState, cid ∉ st.matched_entries →
      cid ∉ (l.foldl (matchStep upload_id published settings oasis) st).matched_entries ∧
      ∀ e ∈ st.store, e.calc_id = cid →
        e ∈ (l.foldl (matchStep upload_id published settings oasis) st).store := by
  induction l with
  | nil => exact fun st hst => ⟨hst, fun e he _ => he⟩
  | cons fp rest ih =>
    intro st hst
    have hfp := hl fp (List.mem_cons_self _ _)
    have hrest : ∀ q ∈ rest, entry_id_for upload_id oasis q.1 ≠ cid :=
      fun q hq => hl q (List.mem_cons_of_mem _ hq)
    have hstep := matchStep_matched_avoids upload_id published settings oasis st fp cid hfp hst
    obtain ⟨h1, h2⟩ := ih hrest (matchStep upload_id published settings oasis st fp) hstep
    refine ⟨h1, fun e he hce => ?_⟩
    exact h2 e (matchStep_store_keeps upload_id published settings oasis st fp e
      (hce ▸ hfp) he) hce

/-- An unmatched pre-existing entry's id lands in `entries_to_delete`
exactly under the deletion policy. -/
theorem mem_entries_to_delete (upload_id : String) (published : Bool)
    (settings : ReprocessSettings) (oasis : OasisEntries) (old_entries : List CalcDoc)
    (matched : List (String × String)) (e : CalcDoc) (he : e ∈ old_entries)
    (hnotm : e.calc_id ∉
      (match_loop upload_id published settings oasis old_entries matched).matched_entries)
    (hpolicy : published = false ∨ settings.delete_unmatched_published_entries = true) :
    e.calc_id ∈ entries_to_delete upload_id published settings oasis old_entries matched := by
  unfold entries_to_delete
  exact List.mem_map.mpr ⟨e, List.mem_filter.mpr ⟨he, by
    simp only [decide_eq_true_eq]
    exact ⟨hnotm, hpolicy⟩⟩, rfl⟩

/-- Under the keep policy (published upload, deletion option unset) nothing
is scheduled for deletion. -/
theorem entries_to_delete_nil_of_keep (upload_id : String)
    (settings : ReprocessSettings) (oasis : OasisEntries) (old_entries : List CalcDoc)
    (matched : List (String × String))
    (hdel : settings.delete_unmatched_published_entries = false) :
    entries_to_delete upload_id true settings oasis old_entries matched = [] := by
  unfold entries_to_delete
  rw [List.filter_eq_nil_iff.mpr ?_]
  · rfl
  · intro a _
    simp only [decide_eq_true_eq, hdel]
    rintro ⟨_, hfalse | hfalse⟩ <;> exact Bool.noConfusion hfalse

/-- C4: after the diffing step, a pre-existing entry none of whose matched
mainfiles maps to its id is deleted from the collection and from the search
index when the upload is unpublished or
`delete_unmatched_published_entries` is set; when the upload is published and
that option is unset, the entry is kept. -/
theorem parse_all_unmatched_entry_policy (upload_id : String) (published : Bool)
    (settings : ReprocessSettings) (oasis : OasisEntries) (old_entries : List CalcDoc)
    (matched : List (String × String)) (search_index : List String) (e : CalcDoc)
    (he : e ∈ old_entries)
    (hunmatched : ∀ fp ∈ matched, entry_id_for upload_id oasis fp.1 ≠ e.calc_id) :
    ((published = false ∨ settings.delete_unmatched_published_entries = true) →
      e.calc_id ∈ (parse_all_diff upload_id published settings oasis old_entries matched
          search_index).deleted ∧
      (∀ x ∈ (parse_all_diff upload_id published settings oasis old_entries matched
          search_index).entries, x.calc_id ≠ e.calc_id) ∧
      e.calc_id ∉ (parse_all_diff upload_id published settings oasis old_entries matched
          search_index).search_index) ∧
    ((published = true ∧ settings.delete_unmatched_published_entries = false) →
      ∃ x ∈ (parse_all_diff upload_id published settings oasis old_entries matched
          search_index).entries, x.calc_id = e.calc_id ∧ x.mainfile = e.mainfile) := by
  obtain ⟨hnotm, hkept⟩ :=
    matchLoop_avoids_id upload_id published settings oasis e.calc_id matched hunmatched
      { store := old_entries, matched_entries := [] } (List.not_mem_nil _)
  constructor
  · intro hpolicy
    have hdel := mem_entries_to_delete upload_id published settings oasis old_entries
      matched e he hnotm hpolicy
    refine ⟨hdel, ?_, ?_⟩
    · intro x hx hxe
      unfold parse_all_diff at hx
      simp only [] at hx
      split at hx
      · obtain ⟨y, hy, rfl⟩ := List.mem_map.mp hx
        have hy2 := (List.mem_filter.mp hy).2
        simp only [decide_eq_true_eq] at hy2
        exact hy2 (by
          have : (reset_entry y).calc_id = y.calc_id := rfl
          rw [this] at hxe
          exact hxe ▸ hdel)
      · have hx2 := (List.mem_filter.mp hx).2
        simp only [decide_eq_true_eq] at hx2
        exact hx2 (hxe ▸ hdel)
    · intro hmem
      unfold parse_all_diff at hmem
      simp only [] at hmem
      have hm2 := (List.mem_filter.mp hmem).2
      simp only [decide_eq_true_eq] at hm2
      exact hm2 hdel
  · rintro ⟨hpub, hdelopt⟩
    subst hpub
    have hnil := entries_to_delete_nil_of_keep upload_id settings oasis old_entries
      matched hdelopt
    have hkeep := hkept e he rfl
    have hold : 0 < old_entries.length := List.length_pos.mpr (List.ne_nil_of_mem he)
    unfold parse_all_diff
    simp only [hnil]
    rw [if_pos hold]
    refine ⟨reset_entry e, ?_, rfl, rfl⟩
    refine List.mem_map.mpr ⟨e, ?_, rfl⟩
    refine List.mem_filter.mpr ⟨hkeep, ?_⟩
    simp

/-- C4 witness: on an unpublished upload, the stale entry `oldEntryGone` is
removed from the collection and the search index by the diffing step. -/
theorem parse_all_unmatched_entry_policy_witness :
    oldEntryGone ∈ [oldEntryGone] ∧
    (∀ fp ∈ [("new/mainfile", "parsers/vasp")],
      entry_id_for "u1" [] fp.1 ≠ oldEntryGone.calc_id) ∧
    (oldEntryGone.calc_id ∈ (parse_all_diff "u1" false conservativeSettings [] [oldEntryGone]
        [("new/mainfile", "parsers/vasp")] ["c_old"]).deleted ∧
      (∀ x ∈ (parse_all_diff "u1" false conservativeSettings [] [oldEntryGone]
          [("new/mainfile", "parsers/vasp")] ["c_old"]).entries,
        x.calc_id ≠ oldEntryGone.calc_id) ∧
      oldEntryGone.calc_id ∉ (parse_all_diff "u1" false conservativeSettings [] [oldEntryGone]
          [("new/mainfile", "parsers/vasp")] ["c_old"]).search_index) :=
  ⟨by decide, by decide,
    (parse_all_unmatched_entry_policy "u1" false conservativeSettings [] [oldEntryGone]
        [("new/mainfile", "parsers/vasp")] ["c_old"] oldEntryGone (by decide) (by decide)).1
      (Or.inl rfl)⟩

/-- Any id in the store after a matching step either already belonged to a
stored entry or is the id of the step's own mainfile. -/
theorem matchStep_store_ids (upload_id : String) (published : Bool)
    (settings : ReprocessSettings) (oasis : OasisEntries) (st : MatchLoopState)
    (q : String × String) :
    ∀ x ∈ (matchStep upload_id published settings oasis st q).store,
      (∃ y ∈ st.store, x.calc_id = y.calc_id) ∨
        x.calc_id = entry_id_for upload_id oasis q.1 := by
  intro x hx
  unfold matchStep at hx
  split at hx
  · split at hx
    · obtain ⟨y, hy, rfl⟩ := List.mem_map.mp hx
      split
      · exact Or.inl ⟨y, hy, rfl⟩
      · exact Or.inl ⟨y, hy, rfl⟩
    · exact Or.inl ⟨x, hx, rfl⟩
  · split at hx
    · rcases List.mem_append.mp hx with hx' | hx'
      · exact Or.inl ⟨x, hx', rfl⟩
      · rw [List.mem_singleton.mp hx']
        exact Or.inr rfl
    · exact Or.inl ⟨x, hx, rfl⟩

/-- The created-entry invariant: every stored entry carrying the id of the
new mainfile `f` is the canonical created entry (mainfile `f`, parser `p`,
initial status), and one such entry exists.  A matching step whose mainfile
id either differs from `f`'s id or belongs to the pair `(f, p)` itself
preserves the invariant. -/
theorem matchStep_preserves_created (upload_id : String) (published : Bool)
    (settings : ReprocessSettings) (f p : String) (st : MatchLoopState)
    (q : String × String)
    (hq : entry_id_for upload_id [] q.1 = generate_entry_id upload_id f → q = (f, p))
    (h1 : ∀ x ∈ st.store, x.calc_id = generate_entry_id upload_id f →
      x.mainfile = f ∧ x.parser = p ∧ x.process_status = ProcessStatus.standby)
    (h2 : ∃ x ∈ st.store, x.calc_id = generate_entry_id upload_id f) :
    (∀ x ∈ (matchStep upload_id published settings [] st q).store,
      x.calc_id = generate_entry_id upload_id f →
      x.mainfile = f ∧ x.parser = p ∧ x.process_status = ProcessStatus.standby) ∧
    ∃ x ∈ (matchStep upload_id published settings [] st q).store,
      x.calc_id = generate_entry_id upload_id f := by
  by_cases hid : entry_id_for upload_id [] q.1 = generate_entry_id upload_id f
  · obtain ⟨x0, hx0, hx0id⟩ := h2
    obtain rfl : q = (f, p) := hq hid
    have hfind : (st.store.find? (fun e =>
        e.calc_id == entry_id_for upload_id [] (f, p).1)).isSome := by
      rw [List.find?_isSome]
      exact ⟨x0, hx0, beq_iff_eq.mpr (hid ▸ hx0id)⟩
    cases hfind2 : st.store.find? (fun e =>
        e.calc_id == entry_id_for upload_id [] (f, p).1) with
    | none => rw [hfind2] at hfind; exact absurd hfind (by simp)
    | some entry =>
      have hentrymem := List.mem_of_find?_eq_some hfind2
      have hentryid : entry.calc_id = generate_entry_id upload_id f := by
        have := List.find?_some hfind2
        rw [beq_iff_eq] at this
        rw [this, hid]
      have hparser := (h1 entry hentrymem hentryid).2.1
      have hcond : ¬(published = false ∧ (f, p).2 ≠ entry.parser) := by
        rintro ⟨_, hne⟩
        exact hne hparser.symm
      unfold matchStep
      rw [hfind2]
      dsimp only
      rw [if_neg hcond]
      exact ⟨h1, ⟨x0, hx0, hx0id⟩⟩
  · have hne : ∀ z : CalcDoc, z.calc_id = generate_entry_id upload_id f →
        ¬z.calc_id = entry_id_for upload_id [] q.1 := by
      intro z hz hzq
      exact hid (hzq ▸ hz)
    constructor
    · intro x hx hxid
      unfold matchStep at hx
      split at hx
      · split at hx
        · obtain ⟨z, hz, hmap⟩ := List.mem_map.mp hx
          by_cases hzid : z.calc_id = entry_id_for upload_id [] q.1
          · rw [if_pos hzid] at hmap
            have hzid2 : z.calc_id = generate_entry_id upload_id f := by
              have : x.calc_id = z.calc_id := by rw [← hmap]
              rw [← this, hxid]
            exact absurd hzid (hne z hzid2)
          · rw [if_neg hzid] at hmap
            rw [← hmap] at hxid ⊢
            exact h1 z hz hxid
        · exact h1 x hx hxid
      · split at hx
        · rcases List.mem_append.mp hx with hx' | hx'
          · exact h1 x hx' hxid
          · rw [List.mem_singleton.mp hx'] at hxid
            exact absurd hxid hid
        · exact h1 x hx hxid
    · obtain ⟨x0, hx0, hx0id⟩ := h2
      unfold matchStep
      split
      · split
        · exact ⟨x0, List.mem_map.mpr ⟨x0, hx0, if_neg (hne x0 hx0id)⟩, hx0id⟩
        · exact ⟨x0, hx0, hx0id⟩
      · split
        · exact ⟨x0, List.mem_append_left _ hx0, hx0id⟩
        · exact ⟨x0, hx0, hx0id⟩

/-- The created-entry invariant is preserved by the rest of the matching
loop. -/
theorem matchLoop_preserves_created (upload_id : String) (published : Bool)
    (settings : ReprocessSettings) (f p : String) (l : List (String × String))
    (hl : ∀ q ∈ l, entry_id_for upload_id [] q.1 = generate_entry_id upload_id f →
      q = (f, p)) :
    ∀ st : MatchLoopState,
      (∀ x ∈ st.store, x.calc_id = generate_entry_id upload_id f →
        x.mainfile = f ∧ x.parser = p ∧ x.process_status = ProcessStatus.standby) →
      (∃ x ∈ st.store, x.calc_id = generate_entry_id upload_id f) →
      (∀ x ∈ (l.foldl (matchStep upload_id published settings []) st).store,
        x.calc_id = generate_entry_id upload_id f →
        x.mainfile = f ∧ x.parser = p ∧ x.process_status = ProcessStatus.standby) ∧
      ∃ x ∈ (l.foldl (matchStep upload_id published settings []) st).store,
        x.calc_id = generate_entry_id upload_id f := by
  induction l with
  | nil => exact fun st h1 h2 => ⟨h1, h2⟩
  | cons q rest ih =>
    intro st h1 h2
    obtain ⟨h1', h2'⟩ := matchStep_preserves_created upload_id published settings f p st q
      (hl q (List.mem_cons_self _ _)) h1 h2
    exact ih (fun q' hq' => hl q' (List.mem_cons_of_mem _ hq'))
      (matchStep upload_id published settings [] st q) h1' h2'

/-- If the new mainfile `(f, p)` occurs in the remaining matching loop, no
other pair maps to its id, creation is allowed by the policy, and the store
holds no entry with the new id yet, then the loop creates the canonical
entry and maintains the created-entry invariant. -/
theorem matchLoop_creates_entry (upload_id : String) (published : Bool)
    (settings : ReprocessSettings) (f p : String)
    (hallow : published = false ∨ settings.add_newfound_entries_to_published = true) :
    ∀ (l : List (String × String)) (st : MatchLoopState),
      (f, p) ∈ l →
      (∀ q ∈ l, entry_id_for upload_id [] q.1 = generate_entry_id upload_id f →
        q = (f, p)) →
      (∀ x ∈ st.store, x.calc_id ≠ generate_entry_id upload_id f) →
      (∀ x ∈ (l.foldl (matchStep upload_id published settings []) st).store,
        x.calc_id = generate_entry_id upload_id f →
        x.mainfile = f ∧ x.parser = p ∧ x.process_status = ProcessStatus.standby) ∧
      ∃ x ∈ (l.foldl (matchStep upload_id published settings []) st).store,
        x.calc_id = generate_entry_id upload_id f := by
  intro l
  induction l with
  | nil => intro st habs; exact absurd habs (List.not_mem_nil _)
  | cons q rest ih =>
    intro st hmem huniq hQ
    by_cases hid : entry_id_for upload_id [] q.1 = generate_entry_id upload_id f
    · -- this step creates the canonical entry
      have hq' : q = (f, p) := huniq q (List.mem_cons_self _ _) hid
      have hfind : st.store.find?
          (fun e => e.calc_id == entry_id_for upload_id [] q.1) = none := by
        rw [List.find?_eq_none]
        intro x hx hbeq
        exact hQ x hx (hid ▸ (beq_iff_eq.mp hbeq))
      have hstep : matchStep upload_id published settings [] st q =
          { store := st.store ++
              [{ calc_id := entry_id_for upload_id [] q.1, upload_id := upload_id,
                 mainfile := q.1, parser := q.2, process_status := ProcessStatus.standby }],
            matched_entries := insertId (entry_id_for upload_id [] q.1)
              st.matched_entries } := by
        unfold matchStep
        rw [hfind]
        dsimp only
        rw [if_pos hallow]
      rw [List.foldl_cons, hstep]
      have hq1 : q.1 = f := by rw [hq']
      have hq2 : q.2 = p := by rw [hq']
      apply matchLoop_preserves_created upload_id published settings f p rest
        (fun q' hq'' => huniq q' (List.mem_cons_of_mem _ hq''))
      · intro x hx hxid
        rcases List.mem_append.mp hx with hx' | hx'
        · exact absurd hxid (hQ x hx')
        · rw [List.mem_singleton.mp hx']
          exact ⟨hq1, hq2, rfl⟩
      · refine ⟨{ calc_id := entry_id_for upload_id [] q.1, upload_id := upload_id,
                  mainfile := q.1, parser := q.2,
                  process_status := ProcessStatus.standby },
          List.mem_append_right _ (List.mem_singleton_self _), hid⟩
    · -- this step concerns a different id and cannot introduce the new one
      have hQ' : ∀ x ∈ (matchStep upload_id published settings [] st q).store,
          x.calc_id ≠ generate_entry_id upload_id f := by
        intro x hx hxid
        rcases matchStep_store_ids upload_id published settings [] st q x hx with
          ⟨y, hy, hxy⟩ | hxq
        · exact hQ y hy (hxy ▸ hxid)
        · exact hid (hxq ▸ hxid)
      have hmem' : (f, p) ∈ rest := by
        rcases List.mem_cons.mp hmem with h | h
        · exact absurd (by rw [← h]; rfl) hid
        · exact h
      exact ih (matchStep upload_id published settings [] st q) hmem'
        (fun q' hq' => huniq q' (List.mem_cons_of_mem _ hq')) hQ'

/-- With a published upload and `add_newfound_entries_to_published` unset,
the matching loop never modifies the store. -/
theorem matchLoop_store_const (upload_id : String) (settings : ReprocessSettings)
    (oasis : OasisEntries)
    (hadd : settings.add_newfound_entries_to_published = false) :
    ∀ (l : List (String × String)) (st : MatchLoopState),
      (l.foldl (matchStep upload_id true settings oasis) st).store = st.store := by
  intro l
  induction l with
  | nil => exact fun st => rfl
  | cons q rest ih =>
    intro st
    have hstep : (matchStep upload_id true settings oasis st q).store = st.store := by
      unfold matchStep
      split
      · dsimp only
        rw [if_neg]
        rintro ⟨hfalse, _⟩
        exact Bool.noConfusion hfalse
      · rw [if_neg]
        rintro (hfalse | hfalse)
        · exact Bool.noConfusion hfalse
        · rw [hadd] at hfalse
          exact Bool.noConfusion hfalse
    rw [List.foldl_cons, ih, hstep]

/-- No pre-existing entry carries the id of the new mainfile, so that id is
never scheduled for deletion. -/
theorem new_id_not_deleted (upload_id : String) (published : Bool)
    (settings : ReprocessSettings) (oasis : OasisEntries) (old_entries : List CalcDoc)
    (matched : List (String × String)) (f : String)
    (hold : ∀ e ∈ old_entries, e.calc_id ≠ generate_entry_id upload_id f) :
    generate_entry_id upload_id f ∉
      entries_to_delete upload_id published settings oasis old_entries matched := by
  unfold entries_to_delete
  intro hmem
  obtain ⟨y, hy, hyid⟩ := List.mem_map.mp hmem
  exact hold y (List.mem_filter.mp hy).1 hyid

/-- C5: during the diffing step, a matched mainfile path `f` for which no
entry exists yields a newly created entry with id
`generate_entry_id(upload_id, f)` and the matched parser recorded, iff the
upload is unpublished or `add_newfound_entries_to_published` is set; on a
published upload with the option unset no entry is created for the new
path.  (`oasis` metadata is empty: `process_upload` passes `{}` unless the
upload comes from an oasis.) -/
theorem parse_all_new_path_policy (upload_id : String) (published : Bool)
    (settings : ReprocessSettings) (old_entries : List CalcDoc)
    (matched : List (String × String)) (search_index : List String) (f p : String)
    (hmem : (f, p) ∈ matched)
    (hold : ∀ e ∈ old_entries, e.calc_id ≠ generate_entry_id upload_id f ∧ e.mainfile ≠ f)
    (huniq : ∀ q ∈ matched, entry_id_for upload_id [] q.1 = generate_entry_id upload_id f →
      q = (f, p)) :
    ((published = false ∨ settings.add_newfound_entries_to_published = true) →
      ∃ x ∈ (parse_all_diff upload_id published settings [] old_entries matched
          search_index).entries,
        x.calc_id = generate_entry_id upload_id f ∧ x.mainfile = f ∧ x.parser = p) ∧
    ((published = true ∧ settings.add_newfound_entries_to_published = false) →
      ∀ x ∈ (parse_all_diff upload_id published settings [] old_entries matched
          search_index).entries, x.mainfile ≠ f) := by
  constructor
  · intro hallow
    obtain ⟨hinv, x, hx, hxid⟩ := matchLoop_creates_entry upload_id published settings f p
      hallow matched { store := old_entries, matched_entries := [] } hmem huniq
      (fun e he => (hold e he).1)
    obtain ⟨hxf, hxp, _⟩ := hinv x hx hxid
    have hnotdel : x.calc_id ∉
        entries_to_delete upload_id published settings [] old_entries matched := by
      rw [hxid]
      exact new_id_not_deleted upload_id published settings [] old_entries matched f
        (fun e he => (hold e he).1)
    unfold parse_all_diff
    dsimp only
    split
    · refine ⟨reset_entry x, List.mem_map.mpr ⟨x, List.mem_filter.mpr ⟨?_, ?_⟩, rfl⟩,
        hxid, hxf, hxp⟩
      · exact hx
      · simpa using hnotdel
    · exact ⟨x, List.mem_filter.mpr ⟨hx, by simpa using hnotdel⟩, hxid, hxf, hxp⟩
  · rintro ⟨hpub, hadd⟩
    subst hpub
    intro x hx
    unfold parse_all_diff at hx
    dsimp only at hx
    have hconst := matchLoop_store_const upload_id settings [] hadd matched
      { store := old_entries, matched_entries := [] }
    split at hx
    · obtain ⟨y, hy, rfl⟩ := List.mem_map.mp hx
      have hy1 := (List.mem_filter.mp hy).1
      rw [match_loop, hconst] at hy1
      exact (hold y hy1).2
    · have hx1 := (List.mem_filter.mp hx).1
      rw [match_loop, hconst] at hx1
      exact (hold x hx1).2

/-- C5 witness: on an unpublished upload a newly matched mainfile yields a
created entry with the generated id and the matched parser. -/
theorem parse_all_new_path_policy_witness :
    ("newfile", "parsers/vasp") ∈ [("newfile", "parsers/vasp")] ∧
    (∀ q ∈ [("newfile", "parsers/vasp")],
      entry_id_for "u1" [] q.1 = generate_entry_id "u1" "newfile" →
        q = ("newfile", "parsers/vasp")) ∧
    ∃ x ∈ (parse_all_diff "u1" false conservativeSettings [] []
        [("newfile", "parsers/vasp")] []).entries,
      x.calc_id = generate_entry_id "u1" "newfile" ∧ x.mainfile = "newfile" ∧
        x.parser = "parsers/vasp" :=
  ⟨by decide, by decide,
    (parse_all_new_path_policy "u1" false conservativeSettings [] [("newfile", "parsers/vasp")]
        [] "newfile" "parsers/vasp" (by decide) (by decide) (by decide)).1 (Or.inl rfl)⟩

/-! ## C8: bundle import fails on a wrong entry id before the final save -/

/-- A failed `impGuard` keeps the failure. -/
theorem impGuard_isSome {s : ImportState} (ok : Bool) (msg : String)
    (h : s.error.isSome = true) : (impGuard s ok msg).error.isSome = true := by
  unfold impGuard
  rw [if_pos h]
  exact h

/-- A guard whose condition is false leaves the import in a failed state. -/
theorem impGuard_false_isSome (s : ImportState) (ok : Bool) (msg : String)
    (hok : ok = false) : (impGuard s ok msg).error.isSome = true := by
  unfold impGuard
  split
  · assumption
  · rw [hok]
    simp

/-- A database write keeps an existing failure. -/
theorem impWrite_isSome {s : ImportState} (w : DbWrite)
    (h : s.error.isSome = true) : (impWrite s w).error.isSome = true := by
  unfold impWrite
  rw [if_pos h]
  exact h

/-- Recording an embargo value keeps an existing failure. -/
theorem insertEmbargo_isSome {s : ImportState} (v : Option Bool)
    (h : s.error.isSome = true) : (insertEmbargo v s).error.isSome = true := by
  unfold insertEmbargo
  rw [if_pos h]
  exact h

/-- After a failure, a guard is a no-op. -/
theorem impGuard_fix {s : ImportState} (ok : Bool) (msg : String)
    (h : s.error.isSome = true) : impGuard s ok msg = s := by
  unfold impGuard
  rw [if_pos h]

/-- After a failure, a write is a no-op. -/
theorem impWrite_fix {s : ImportState} (w : DbWrite)
    (h : s.error.isSome = true) : impWrite s w = s := by
  unfold impWrite
  rw [if_pos h]

/-- After a failure, an entry-loop iteration is a no-op. -/
theorem import_entry_step_fix (selfu : String) (name : Option String) (user : String)
    (pub : Bool) (wea : Option Bool) (incd : Bool) {s : ImportState} (e : BundleEntry)
    (h : s.error.isSome = true) :
    import_entry_step selfu name user pub wea incd s e = s := by
  unfold import_entry_step
  rw [if_pos h]

/-- An entry whose `_id` differs from `generate_entry_id(upload_id, mainfile)`
leaves its loop iteration in a failed state. -/
theorem import_entry_step_bad_id (selfu : String) (name : Option String) (user : String)
    (pub : Bool) (wea : Option Bool) (incd : Bool) (s : ImportState) (e : BundleEntry)
    (hbad : e.entry_id ≠ generate_entry_id selfu e.mainfile) :
    (import_entry_step selfu name user pub wea incd s e).error.isSome = true := by
  unfold import_entry_step
  split
  · assumption
  · dsimp only
    apply impGuard_isSome
    apply impGuard_isSome
    apply impWrite_isSome
    apply impGuard_isSome
    apply impGuard_isSome
    apply impGuard_isSome
    apply impGuard_isSome
    exact impGuard_false_isSome _ _ _ (beq_eq_false_iff_ne.mpr hbad)

/-- A bundle entry list containing an entry with a wrong `_id` drives the
entry loop into a failed state. -/
theorem entries_fold_bad_id (selfu : String) (name : Option String) (user : String)
    (pub : Bool) (wea : Option Bool) (incd : Bool) :
    ∀ (l : List BundleEntry) (s : ImportState),
      (∃ e ∈ l, e.entry_id ≠ generate_entry_id selfu e.mainfile) →
      (l.foldl (import_entry_step selfu name user pub wea incd) s).error.isSome = true := by
  intro l
  induction l with
  | nil =>
    rintro s ⟨e, he, _⟩
    exact absurd he (List.not_mem_nil _)
  | cons e' rest ih =>
    rintro s ⟨e, he, hbad⟩
    rw [List.foldl_cons]
    rcases List.mem_cons.mp he with rfl | he'
    · exact foldl_pres (import_entry_step selfu name user pub wea incd)
        (fun st : ImportState => st.error.isSome = true)
        (fun st b hb => by
          rw [import_entry_step_fix selfu name user pub wea incd b hb]
          exact hb)
        rest _ (import_entry_step_bad_id selfu name user pub wea incd s e hbad)
    · exact ih _ ⟨e, he', hbad⟩

/-- A guard does not write to the database. -/
theorem impGuard_writes (s : ImportState) (ok : Bool) (msg : String) :
    (impGuard s ok msg).writes = s.writes := by
  unfold impGuard
  split
  · rfl
  · split
    · rfl
    · rfl

/-- Recording an embargo value does not write to the database. -/
theorem insertEmbargo_writes (v : Option Bool) (s : ImportState) :
    (insertEmbargo v s).writes = s.writes := by
  unfold insertEmbargo
  split
  · rfl
  · split
    · rfl
    · rfl

/-- What a database write adds to the trace. -/
theorem impWrite_writes_sub (s : ImportState) (w : DbWrite) :
    ∀ x ∈ (impWrite s w).writes, x ∈ s.writes ∨ x = w := by
  intro x hx
  unfold impWrite at hx
  split at hx
  · exact Or.inl hx
  · rcases List.mem_append.mp hx with h | h
    · exact Or.inl h
    · exact Or.inr (List.mem_singleton.mp h)

/-- A dataset-loop iteration writes at most its own dataset save. -/
theorem import_dataset_step_writes (datasets_db : List BundleDataset)
    (s : ImportState) (d : BundleDataset) :
    ∀ x ∈ (import_dataset_step datasets_db s d).writes,
      x ∈ s.writes ∨ x = DbWrite.dataset_save d.dataset_id := by
  intro x hx
  unfold import_dataset_step at hx
  split at hx
  · exact Or.inl hx
  · dsimp only at hx
    split at hx
    · simp only [impGuard_writes] at hx
      exact Or.inl hx
    · split at hx
      · split at hx
        · simp only [impGuard_writes] at hx
          exact Or.inl hx
        · dsimp only at hx
          simp only [impGuard_writes] at hx
          exact Or.inl hx
      · dsimp only at hx
        rcases impWrite_writes_sub _ _ x hx with h | h
        · simp only [impGuard_writes] at h
          exact Or.inl h
        · exact Or.inr h

/-- An entry-loop iteration writes at most its own `Calc.create`. -/
theorem import_entry_step_writes (selfu : String) (name : Option String) (user : String)
    (pub : Bool) (wea : Option Bool) (incd : Bool) (s : ImportState) (e : BundleEntry) :
    ∀ x ∈ (import_entry_step selfu name user pub wea incd s e).writes,
      x ∈ s.writes ∨ x = DbWrite.entry_create e.entry_id := by
  intro x hx
  unfold import_entry_step at hx
  split at hx
  · exact Or.inl hx
  · dsimp only at hx
    simp only [impGuard_writes] at hx
    rcases impWrite_writes_sub _ _ x hx with h | h
    · simp only [impGuard_writes, insertEmbargo_writes] at h
      exact Or.inl h
    · exact Or.inr h

/-- Guards keep `noFinalWrites`. -/
theorem noFinalWrites_impGuard (s : ImportState) (ok : Bool) (msg : String)
    (h : noFinalWrites s) : noFinalWrites (impGuard s ok msg) := by
  unfold noFinalWrites
  rw [impGuard_writes]
  exact h

/-- A write of one of the validation-phase kinds keeps `noFinalWrites`. -/
theorem noFinalWrites_impWrite (s : ImportState) (w : DbWrite) (h : noFinalWrites s)
    (hw : w = DbWrite.upload_modify ∨ (∃ id, w = DbWrite.dataset_save id) ∨
      ∃ id, w = DbWrite.entry_create id) : noFinalWrites (impWrite s w) := by
  obtain ⟨h1, h2, h3⟩ := h
  refine ⟨fun hm => ?_, fun hm => ?_, fun id hm => ?_⟩
  · rcases impWrite_writes_sub s w _ hm with h' | h'
    · exact h1 h'
    · rcases hw with rfl | ⟨i, rfl⟩ | ⟨i, rfl⟩ <;> exact DbWrite.noConfusion h'
  · rcases impWrite_writes_sub s w _ hm with h' | h'
    · exact h2 h'
    · rcases hw with rfl | ⟨i, rfl⟩ | ⟨i, rfl⟩ <;> exact DbWrite.noConfusion h'
  · rcases impWrite_writes_sub s w _ hm with h' | h'
    · exact h3 id h'
    · rcases hw with rfl | ⟨i, rfl⟩ | ⟨i, rfl⟩ <;> exact DbWrite.noConfusion h'

/-- A dataset-loop iteration keeps `noFinalWrites`. -/
theorem noFinalWrites_dataset_step (datasets_db : List BundleDataset) (s : ImportState)
    (d : BundleDataset) (h : noFinalWrites s) :
    noFinalWrites (import_dataset_step datasets_db s d) := by
  obtain ⟨h1, h2, h3⟩ := h
  refine ⟨fun hm => ?_, fun hm => ?_, fun id hm => ?_⟩
  · rcases import_dataset_step_writes datasets_db s d _ hm with h' | h'
    · exact h1 h'
    · exact DbWrite.noConfusion h'
  · rcases import_dataset_step_writes datasets_db s d _ hm with h' | h'
    · exact h2 h'
    · exact DbWrite.noConfusion h'
  · rcases import_dataset_step_writes datasets_db s d _ hm with h' | h'
    · exact h3 id h'
    · exact DbWrite.noConfusion h'

/-- An entry-loop iteration keeps `noFinalWrites`. -/
theorem noFinalWrites_entry_step (selfu : String) (name : Option String) (user : String)
    (pub : Bool) (wea : Option Bool) (incd : Bool) (s : ImportState) (e : BundleEntry)
    (h : noFinalWrites s) :
    noFinalWrites (import_entry_step selfu name user pub wea incd s e) := by
  obtain ⟨h1, h2, h3⟩ := h
  refine ⟨fun hm => ?_, fun hm => ?_, fun id hm => ?_⟩
  · rcases import_entry_step_writes selfu name user pub wea incd s e _ hm with h' | h'
    · exact h1 h'
    · exact DbWrite.noConfusion h'
  · rcases import_entry_step_writes selfu name user pub wea incd s e _ hm with h' | h'
    · exact h2 h'
    · exact DbWrite.noConfusion h'
  · rcases import_entry_step_writes selfu name user pub wea incd s e _ hm with h' | h'
    · exact h3 id h'
    · exact DbWrite.noConfusion h'

/-- The pre-entry validation performs no write of the final persistence
block. -/
theorem import_bundle_pre_noFinalWrites (self : UploadSkeleton) (bundle : BundleInfo)
    (settings : BundleImportSettings) (datasets_db : List BundleDataset) :
    noFinalWrites (import_bundle_pre self bundle settings datasets_db) := by
  have hbase : noFinalWrites
      { writes := [], error := none, dataset_id_mapping := [], with_embargo_values := [] } :=
    ⟨List.not_mem_nil _, List.not_mem_nil _, fun _ => List.not_mem_nil _⟩
  unfold import_bundle_pre
  dsimp only
  split
  · apply foldl_pres (import_dataset_step datasets_db) noFinalWrites
      (fun a b ha => noFinalWrites_dataset_step datasets_db a b ha)
    apply noFinalWrites_impGuard
    apply noFinalWrites_impGuard
    apply noFinalWrites_impGuard
    apply noFinalWrites_impGuard
    apply noFinalWrites_impWrite
    · apply noFinalWrites_impGuard
      apply noFinalWrites_impGuard
      apply noFinalWrites_impGuard
      apply noFinalWrites_impGuard
      apply noFinalWrites_impGuard
      apply noFinalWrites_impGuard
      apply noFinalWrites_impGuard
      apply noFinalWrites_impGuard
      exact hbase
    · exact Or.inl rfl
  · apply noFinalWrites_impGuard
    apply noFinalWrites_impGuard
    apply noFinalWrites_impGuard
    apply noFinalWrites_impWrite
    · apply noFinalWrites_impGuard
      apply noFinalWrites_impGuard
      apply noFinalWrites_impGuard
      apply noFinalWrites_impGuard
      apply noFinalWrites_impGuard
      apply noFinalWrites_impGuard
      apply noFinalWrites_impGuard
      apply noFinalWrites_impGuard
      exact hbase
    · exact Or.inl rfl

/-- The archive-metadata checks do not write. -/
theorem archive_fold_writes (l : List BundleEntry) :
    ∀ s : ImportState,
      (l.foldl (fun s e =>
        impGuard s e.archive_metadata_ok "Invalid metadata in archive entry") s).writes =
      s.writes := by
  induction l with
  | nil => exact fun s => rfl
  | cons e rest ih =>
    intro s
    rw [List.foldl_cons, ih, impGuard_writes]

/-- The post-entry checks do not write. -/
theorem import_post_writes (self : UploadSkeleton) (bundle : BundleInfo)
    (settings : BundleImportSettings) (ela : Option Nat) (s : ImportState) :
    (import_post_entry_checks self bundle settings ela s).writes = s.writes := by
  unfold import_post_entry_checks
  dsimp only
  split
  · rw [archive_fold_writes]
    split
    · split
      · simp only [impGuard_writes]
      · simp only [impGuard_writes]
    · simp only [impGuard_writes]
  · split
    · split
      · simp only [impGuard_writes]
      · simp only [impGuard_writes]
    · simp only [impGuard_writes]

/-- The post-entry checks keep a failure. -/
theorem import_post_isSome (self : UploadSkeleton) (bundle : BundleInfo)
    (settings : BundleImportSettings) (ela : Option Nat) (s : ImportState)
    (h : s.error.isSome = true) :
    (import_post_entry_checks self bundle settings ela s).error.isSome = true := by
  unfold import_post_entry_checks
  dsimp only
  split
  · apply foldl_pres (fun s (e : BundleEntry) =>
        impGuard s e.archive_metadata_ok "Invalid metadata in archive entry")
      (fun st : ImportState => st.error.isSome = true)
      (fun a b ha => impGuard_isSome _ _ ha)
    split
    · split
      · exact impGuard_isSome _ _ (impGuard_isSome _ _ (impGuard_isSome _ _
          (impGuard_isSome _ _ h)))
      · exact impGuard_isSome _ _ (impGuard_isSome _ _ h)
    · exact impGuard_isSome _ _ h
  · split
    · split
      · exact impGuard_isSome _ _ (impGuard_isSome _ _ (impGuard_isSome _ _
          (impGuard_isSome _ _ h)))
      · exact impGuard_isSome _ _ (impGuard_isSome _ _ h)
    · exact impGuard_isSome _ _ h

/-- C8 (amended): for every bundle containing an entry whose `_id` differs
from `generate_entry_id(upload_id, mainfile)`, `import_bundle` fails with a
validation error, and the final persistence block is never reached: the
upload save, the entry saves and the bulk search indexing are all absent
from the write trace.  (Writes performed during validation — the upload
record modification, dataset saves, and `Calc.create` for entries preceding
the offending one — may already have occurred; see the counterexample.) -/
theorem import_bundle_bad_entry_id_fails_before_final_save
    (self : UploadSkeleton) (bundle : BundleInfo) (settings : BundleImportSettings)
    (wea : Option Bool) (ela : Option Nat) (db : List BundleDataset)
    (h : ∃ e ∈ bundle.entries, e.entry_id ≠ generate_entry_id self.upload_id e.mainfile) :
    (import_bundle self bundle settings wea ela db).error.isSome = true ∧
    DbWrite.upload_save ∉ (import_bundle self bundle settings wea ela db).writes ∧
    DbWrite.search_index_bulk ∉ (import_bundle self bundle settings wea ela db).writes ∧
    ∀ id, DbWrite.entry_save id ∉ (import_bundle self bundle settings wea ela db).writes := by
  have hval : (import_post_entry_checks self bundle settings ela
      (bundle.entries.foldl
        (import_entry_step self.upload_id bundle.upload_name self.user_id
          bundle.upload_published wea settings.include_datasets)
        (import_bundle_pre self bundle settings db))).error.isSome = true :=
    import_post_isSome self bundle settings ela _
      (entries_fold_bad_id self.upload_id bundle.upload_name self.user_id
        bundle.upload_published wea settings.include_datasets bundle.entries _ h)
  have hfoldW : noFinalWrites (bundle.entries.foldl
      (import_entry_step self.upload_id bundle.upload_name self.user_id
        bundle.upload_published wea settings.include_datasets)
      (import_bundle_pre self bundle settings db)) :=
    foldl_pres (import_entry_step self.upload_id bundle.upload_name self.user_id
        bundle.upload_published wea settings.include_datasets) noFinalWrites
      (fun a b ha => noFinalWrites_entry_step _ _ _ _ _ _ a b ha)
      bundle.entries _ (import_bundle_pre_noFinalWrites self bundle settings db)
  have hW : noFinalWrites (import_post_entry_checks self bundle settings ela
      (bundle.entries.foldl
        (import_entry_step self.upload_id bundle.upload_name self.user_id
          bundle.upload_published wea settings.include_datasets)
        (import_bundle_pre self bundle settings db))) := by
    unfold noFinalWrites
    rw [import_post_writes]
    exact hfoldW
  have hfinal : import_bundle self bundle settings wea ela db =
      import_post_entry_checks self bundle settings ela
        (bundle.entries.foldl
          (import_entry_step self.upload_id bundle.upload_name self.user_id
            bundle.upload_published wea settings.include_datasets)
          (import_bundle_pre self bundle settings db)) := by
    unfold import_bundle
    dsimp only
    rw [impWrite_fix _ hval]
    rw [foldl_fix (fun s e => impWrite s (DbWrite.entry_save e.entry_id))
      (fun st : ImportState => st.error.isSome = true)
      (fun a b ha => impWrite_fix _ ha) bundle.entries _ hval]
    split
    · rw [impWrite_fix _ hval]
    · rfl
  rw [hfinal]
  exact ⟨hval, hW.1, hW.2.1, hW.2.2⟩

/-- C8 counterexample: importing `importBundleBadId` fails at the entry-id
validation, but the upload-record modification (`self.modify`) and the save
of the bundle's new dataset have already been written to the database —
refuting "the failure occurs before any database write has been performed
(no Upload, Entry, or Dataset record persisted)". -/
theorem import_bundle_writes_before_bad_id_failure :
    (import_bundle importSelf importBundleBadId importSettingsAll none none []).error =
      some "Provided entry id does not match generated value" ∧
    DbWrite.upload_modify ∈
      (import_bundle importSelf importBundleBadId importSettingsAll none none []).writes ∧
    DbWrite.dataset_save "d1" ∈
      (import_bundle importSelf importBundleBadId importSettingsAll none none []).writes := by
  decide

/-- C8 witness: the amended theorem applied to the concrete bundle. -/
theorem import_bundle_bad_entry_id_witness :
    (∃ e ∈ importBundleBadId.entries,
      e.entry_id ≠ generate_entry_id importSelf.upload_id e.mainfile) ∧
    ((import_bundle importSelf importBundleBadId importSettingsAll none none []).error.isSome =
        true ∧
      DbWrite.upload_save ∉
        (import_bundle importSelf importBundleBadId importSettingsAll none none []).writes ∧
      DbWrite.search_index_bulk ∉
        (import_bundle importSelf importBundleBadId importSettingsAll none none []).writes ∧
      ∀ id, DbWrite.entry_save id ∉
        (import_bundle importSelf importBundleBadId importSettingsAll none none []).writes) :=
  ⟨⟨importBadEntry, by decide, by decide⟩,
    import_bundle_bad_entry_id_fails_before_final_save importSelf importBundleBadId
      importSettingsAll none none [] ⟨importBadEntry, by decide, by decide⟩⟩

/-! ## C10: user metadata application and the calc_id reassignment -/

/-- A key of the dictionary has a lookup value. -/
theorem alist_lookup_isSome_of_mem (d : MetaDict) (k : String)
    (h : k ∈ dictKeys d) : (alist_lookup d k).isSome = true := by
  induction d with
  | nil => exact absurd h (List.not_mem_nil _)
  | cons kv rest ih =>
    unfold alist_lookup
    split
    · rfl
    case isFalse hne =>
      rcases List.mem_cons.mp h with h' | h'
      · exact absurd h'.symm hne
      · exact ih h'

/-- Setting an existing or new key makes it the lookup value. -/
theorem alist_lookup_dict_set_self (d : MetaDict) (k v : String) :
    alist_lookup (dict_set d k v) k = some v := by
  induction d with
  | nil => simp [dict_set, alist_lookup]
  | cons kv rest ih =>
    unfold dict_set
    split
    · simp [alist_lookup]
    case isFalse hne =>
      unfold alist_lookup
      rw [if_neg hne]
      exact ih

/-- Setting one key leaves the lookup of a different key unchanged. -/
theorem alist_lookup_dict_set_ne (d : MetaDict) (k k' v : String) (hne : k' ≠ k) :
    alist_lookup (dict_set d k' v) k = alist_lookup d k := by
  induction d with
  | nil => simp [dict_set, alist_lookup, hne]
  | cons kv rest ih =>
    unfold dict_set
    split
    case isTrue h =>
      unfold alist_lookup
      rw [if_neg hne, if_neg (h ▸ hne)]
    case isFalse h =>
      unfold alist_lookup
      split
      · rfl
      · exact ih

/-- The keys after a `dict_set` are the set key or old keys. -/
theorem dictKeys_dict_set_sub (d : MetaDict) (k v : String) :
    ∀ x ∈ dictKeys (dict_set d k v), x = k ∨ x ∈ dictKeys d := by
  induction d with
  | nil => intro x hx; exact Or.inl (List.mem_singleton.mp (by simpa [dict_set, dictKeys] using hx))
  | cons kv rest ih =>
    intro x hx
    unfold dict_set at hx
    split at hx
    case isTrue h =>
      rcases List.mem_cons.mp hx with rfl | hx'
      · exact Or.inl rfl
      · exact Or.inr (List.mem_cons_of_mem _ hx')
    case isFalse h =>
      rcases List.mem_cons.mp hx with rfl | hx'
      · exact Or.inr (List.mem_cons_self _ _)
      · rcases ih x hx' with h' | h'
        · exact Or.inl h'
        · exact Or.inr (List.mem_cons_of_mem _ h')

/-- `dict_set` keeps the keys duplicate-free. -/
theorem dictKeys_dict_set_nodup (d : MetaDict) (k v : String)
    (h : (dictKeys d).Nodup) : (dictKeys (dict_set d k v)).Nodup := by
  induction d with
  | nil => simp [dict_set, dictKeys]
  | cons kv rest ih =>
    unfold dict_set
    split
    case isTrue hk =>
      simp only [dictKeys, List.map_cons, List.nodup_cons] at h ⊢
      exact ⟨hk ▸ h.1, h.2⟩
    case isFalse hk =>
      simp only [dictKeys, List.map_cons, List.nodup_cons] at h ⊢
      refine ⟨fun hmem => ?_, ih h.2⟩
      rcases dictKeys_dict_set_sub rest k v _ hmem with h' | h'
      · exact hk h'
      · exact h.1 h'

/-- `dict_setdefault` keeps the keys duplicate-free. -/
theorem dictKeys_dict_setdefault_nodup (d : MetaDict) (k v : String)
    (h : (dictKeys d).Nodup) : (dictKeys (dict_setdefault d k v)).Nodup := by
  unfold dict_setdefault
  split
  · exact h
  case isFalse hnone =>
    have hk : k ∉ dictKeys d := fun hmem => hnone (alist_lookup_isSome_of_mem d k hmem)
    simp only [dictKeys, List.map_append]
    rw [List.nodup_append]
    exact ⟨h, List.nodup_singleton _, by
      intro x hx hk'
      rw [List.mem_singleton.mp hk'] at hx
      exact hk hx⟩

/-- The collected user metadata has duplicate-free keys. -/
theorem collect_file_metadata_keys_nodup (dirs : List MetaDict)
    (root_entries : List (String × MetaDict)) (mainfile : String) :
    (dictKeys (collect_file_metadata dirs root_entries mainfile)).Nodup := by
  unfold collect_file_metadata
  dsimp only
  apply foldl_pres (fun (acc : MetaDict) (kv : String × String) => dict_set acc kv.1 kv.2)
    (fun d : MetaDict => (dictKeys d).Nodup)
    (fun a b ha => dictKeys_dict_set_nodup a b.1 b.2 ha)
  apply foldl_pres
    (fun (acc : MetaDict) (part : MetaDict) => part.foldl (fun acc kv =>
      if kv.1 = "entries" ∨ kv.1 = "oasis_datasets" then acc
      else dict_setdefault acc kv.1 kv.2) acc)
    (fun d : MetaDict => (dictKeys d).Nodup)
  · intro a b ha
    apply foldl_pres (fun (acc : MetaDict) (kv : String × String) =>
        if kv.1 = "entries" ∨ kv.1 = "oasis_datasets" then acc
        else dict_setdefault acc kv.1 kv.2)
      (fun d : MetaDict => (dictKeys d).Nodup)
    · intro a' b' ha'
      split
      · exact ha'
      · exact dictKeys_dict_setdefault_nodup a' b'.1 b'.2 ha'
    · exact ha
  · exact List.nodup_nil

/-- A metadata item for a key other than `calc_id` changes neither the
document's `calc_id` nor the `calc_id` entry of the metadata under
construction. -/
theorem apply_metadata_item_other (editable oasis : List String) (from_oasis : Bool)
    (s : CalcMetaState) (kv : String × String) (hk : kv.1 ≠ "calc_id") :
    (apply_metadata_item editable oasis from_oasis s kv).calc_id = s.calc_id ∧
    alist_lookup (apply_metadata_item editable oasis from_oasis s kv).entry_metadata
      "calc_id" = alist_lookup s.entry_metadata "calc_id" := by
  unfold apply_metadata_item
  by_cases h1 : kv.1 = "entries"
  · rw [if_pos h1]
    exact ⟨rfl, rfl⟩
  · rw [if_neg h1]
    by_cases h2 : (editable.contains kv.1 || (from_oasis && oasis.contains kv.1)) = true
    · rw [if_pos h2, if_neg hk]
      exact ⟨rfl, alist_lookup_dict_set_ne _ _ _ _ hk⟩
    · rw [if_neg h2]
      exact ⟨rfl, rfl⟩

/-- The application loop over items none of which is `calc_id` preserves
the document's `calc_id` and the metadata's `calc_id` entry. -/
theorem apply_user_metadata_no_calc_id (editable oasis : List String) (from_oasis : Bool) :
    ∀ (md : MetaDict) (s : CalcMetaState),
      "calc_id" ∉ dictKeys md →
      (apply_user_metadata editable oasis from_oasis md s).calc_id = s.calc_id ∧
      alist_lookup (apply_user_metadata editable oasis from_oasis md s).entry_metadata
        "calc_id" = alist_lookup s.entry_metadata "calc_id" := by
  intro md
  induction md with
  | nil => exact fun s _ => ⟨rfl, rfl⟩
  | cons kv rest ih =>
    intro s hk
    have hk1 : kv.1 ≠ "calc_id" := by
      intro h
      exact hk (by simp [dictKeys, h])
    have hk2 : "calc_id" ∉ dictKeys rest := by
      intro h
      exact hk (by simp [dictKeys] at h ⊢; exact Or.inr h)
    unfold apply_user_metadata at ih ⊢
    rw [List.foldl_cons]
    obtain ⟨hstep1, hstep2⟩ :=
      apply_metadata_item_other editable oasis from_oasis s kv hk1
    obtain ⟨hf1, hf2⟩ := ih (apply_metadata_item editable oasis from_oasis s kv) hk2
    exact ⟨hf1.trans hstep1, hf2.trans hstep2⟩

/-- The application loop applies a recognized `calc_id` item: afterwards the
document's `calc_id` and the metadata's `calc_id` entry are the provided
value. -/
theorem apply_user_metadata_calc_id (editable oasis : List String) (from_oasis : Bool) :
    ∀ (md : MetaDict) (s : CalcMetaState) (v : String),
      (dictKeys md).Nodup →
      (editable.contains "calc_id" || (from_oasis && oasis.contains "calc_id")) = true →
      alist_lookup md "calc_id" = some v →
      (apply_user_metadata editable oasis from_oasis md s).calc_id = v ∧
      alist_lookup (apply_user_metadata editable oasis from_oasis md s).entry_metadata
        "calc_id" = some v := by
  intro md
  induction md with
  | nil =>
    intro s v _ _ hv
    exact absurd hv (by simp [alist_lookup])
  | cons kv rest ih =>
    intro s v hnd hrec hv
    unfold apply_user_metadata
    rw [List.foldl_cons]
    by_cases hk : kv.1 = "calc_id"
    · have hv2 : kv.2 = v := by
        unfold alist_lookup at hv
        rw [if_pos hk] at hv
        exact Option.some.inj hv
      have hrest : "calc_id" ∉ dictKeys rest := by
        have := (by simpa [dictKeys] using hnd : ¬kv.1 ∈ List.map Prod.fst rest ∧
          (List.map Prod.fst rest).Nodup)
        rw [hk] at this
        exact this.1
      have hstep : apply_metadata_item editable oasis from_oasis s kv =
          { calc_id := kv.2, entry_metadata := dict_set s.entry_metadata kv.1 kv.2 } := by
        unfold apply_metadata_item
        rw [if_neg (by rw [hk]; decide), if_pos (by rw [hk]; exact hrec), if_pos hk]
      rw [hstep]
      obtain ⟨hf1, hf2⟩ := apply_user_metadata_no_calc_id editable oasis from_oasis rest
        { calc_id := kv.2, entry_metadata := dict_set s.entry_metadata kv.1 kv.2 } hrest
      unfold apply_user_metadata at hf1 hf2
      refine ⟨hf1.trans hv2, ?_⟩
      rw [hf2]
      dsimp only
      rw [hk, alist_lookup_dict_set_self, hv2]
    · have hv' : alist_lookup rest "calc_id" = some v := by
        unfold alist_lookup at hv
        rw [if_neg hk] at hv
        exact hv
      have hnd' : (dictKeys rest).Nodup := by
        simpa [dictKeys] using ((by simpa [dictKeys] using hnd :
          ¬kv.1 ∈ List.map Prod.fst rest ∧ (List.map Prod.fst rest).Nodup)).2
      obtain ⟨hf1, hf2⟩ := ih (apply_metadata_item editable oasis from_oasis s kv) v
        hnd' hrec hv'
      unfold apply_user_metadata at hf1 hf2
      exact ⟨hf1, hf2⟩

/-- C10: during the archiving step, a recognized `calc_id` key of the user
metadata file reassigns the entry's identifier: if `calc_id` is among the
editable-metadata definitions (or, for an oasis upload, the oasis
definitions) and the collected metadata provides a value `v` for it, then
after `_read_metadata_from_file` the entry's `calc_id` equals `v` (and the
entry metadata records it) — so after archiving an entry's id need not equal
`generate_entry_id(upload_id, mainfile)`. -/
theorem read_metadata_from_file_reassigns_calc_id (editable oasis : List String)
    (from_oasis : Bool) (dirs : List MetaDict) (root_entries : List (String × MetaDict))
    (mainfile v : String) (s : CalcMetaState)
    (hrec : (editable.contains "calc_id" || (from_oasis && oasis.contains "calc_id")) = true)
    (hval : alist_lookup (collect_file_metadata dirs root_entries mainfile) "calc_id" =
      some v) :
    (read_metadata_from_file editable oasis from_oasis dirs root_entries mainfile s).calc_id =
      v ∧
    alist_lookup (read_metadata_from_file editable oasis from_oasis dirs root_entries
      mainfile s).entry_metadata "calc_id" = some v := by
  unfold read_metadata_from_file
  exact apply_user_metadata_calc_id editable oasis from_oasis
    (collect_file_metadata dirs root_entries mainfile) s v
    (collect_file_metadata_keys_nodup dirs root_entries mainfile) hrec hval

/-- C10 witness: a metadata file next to the mainfile with a recognized
`calc_id` key reassigns the entry id to `custom-id`, which differs from the
generated id. -/
theorem read_metadata_from_file_reassigns_calc_id_witness :
    ((["comment", "calc_id"].contains "calc_id" ||
        (false && ([] : List String).contains "calc_id")) = true) ∧
    (alist_lookup (collect_file_metadata [[("calc_id", "custom-id"), ("comment", "hi")]] []
        "m1") "calc_id" = some "custom-id") ∧
    (read_metadata_from_file ["comment", "calc_id"] [] false
        [[("calc_id", "custom-id"), ("comment", "hi")]] [] "m1"
        { calc_id := generate_entry_id "u1" "m1", entry_metadata := [] }).calc_id =
      "custom-id" ∧
    "custom-id" ≠ generate_entry_id "u1" "m1" :=
  ⟨by decide, by decide,
    (read_metadata_from_file_reassigns_calc_id ["comment", "calc_id"] [] false
        [[("calc_id", "custom-id"), ("comment", "hi")]] [] "m1" "custom-id"
        { calc_id := generate_entry_id "u1" "m1", entry_metadata := [] }
        (by decide) (by decide)).1,
    by decide⟩

end NomadProc
